import Mathlib

/-!
# Verification of the AC2 asteroids-game simulation core

Shallow embedding of the parts of the repository that the verified claims
concern: the particle pool (`src/particle_system.py`), the combo/finisher
state machine, collision resolution, enemy shooting and ship damage
(`src/main.py`), and the persistence layer (`src/progression_system.py`).

Python floats are embedded as rationals (`ℚ`), Python ints as `ℤ`/`ℕ`.
Calls into the math library that produce irrational values (`math.sqrt`,
`x ** time_scale`) are threaded through explicit oracle parameters
(`sq : ℚ → ℚ`, `pw : ℚ → ℚ → ℚ`); no verified property depends on the
oracle values except where a hypothesis pins the exact square root.
Random draws (`random.uniform`, `random.randint`, `random.random`) are
threaded as explicit parameters.  Purely cosmetic side effects
(particle/text/sound/screen-shake spawns) are not part of the embedded
state, as they do not feed back into any of the simulated quantities.
-/

namespace AC2

/-! ## Configuration constants (src/config.py, class Cfg) -/

namespace Cfg

def fps : ℕ := 60

def ship_max_speed : ℚ := 32/5

def ship_radius : ℚ := 10

def ship_invulnerability_time : ℚ := 120

def ship_respawn_duration : ℚ := 90

def bullet_radius : ℚ := 2

def asteroid_min_size : ℤ := 1

def asteroid_max_size : ℤ := 3

def asteroid_base_speed : ℚ := 2

def asteroid_speed_multiplier : ℚ := 3/2

def asteroid_speed_size_adjustment : ℚ := 1/5

def asteroid_collision_margin : ℚ := 12

def asteroid_hit_flash_duration : ℚ := 8

def asteroid_scores (size : ℤ) : ℤ :=
  if size = 3 then 100 else if size = 2 then 50 else 20

def asteroid_split_count : ℕ := 2

def boss_health : ℤ := 50

def boss_size_multiplier : ℚ := 3

def boss_speed_multiplier : ℚ := 1/2

def boss_score : ℤ := 1000

def enemy_fire_rate : ℚ := 90

def enemy_fire_rate_variance : ℚ := 10

def enemy_score : ℤ := 200

def enemy_aim_inaccuracy : ℚ := 5

def enemy_min_fire_distance : ℚ := 50

def enemy_max_fire_distance : ℚ := 250

def dash_duration : ℚ := 15

def dash_speed_multiplier : ℚ := 3

def finisher_lock_on_time : ℤ := 30

def finisher_pre_impact_time : ℤ := 6

def finisher_impact_time : ℤ := 60

def finisher_post_impact_time : ℤ := 30

def finisher_lock_on_scale : ℚ := 1/2

def finisher_time_scale : ℚ := 1/10

def finisher_shockwave_radius : ℚ := 200

def finisher_damage_close : ℤ := 3

def finisher_damage_far : ℤ := 2

def finisher_knockback_force : ℚ := 15

def finisher_score : ℤ := 500

def finisher_shockwave_close_range : ℚ := 1/2

def combo_timeout : ℚ := 180

def combo_pulse_interval : ℕ := 10

def combo_milestone_thresholds : List ℕ := [5, 10, 15, 20]

def combo_text_threshold : ℕ := 5

def combo_fill_rate_base : ℚ := 10

def combo_fill_rate_medium : ℚ := 15

def combo_fill_rate_high : ℚ := 20

def combo_medium_threshold : ℕ := 5

def combo_high_threshold : ℕ := 10

def combo_max_pulse : ℚ := 20

def combo_pulse_fade_rate : ℚ := 2

def particle_streak_attraction_distance : ℚ := 100

def particle_streak_attraction_force : ℚ := 3/20

def particle_streak_min_life : ℚ := 5

def damage_flash_duration : ℚ := 60

def shield_flash_duration : ℚ := 30

end Cfg

/-! ## Entity data model (src/data_structures.py) -/

inductive ParticleType where
  | streak
  | respawn
  | dash
  | finisher
  | enemy_explosion
  | burst
  | default
deriving DecidableEq, Repr

/-- A 2D position, standing for any object exposing `x`/`y` attributes. -/
structure Pos where
  x : ℚ
  y : ℚ
deriving DecidableEq, Repr

/-- `Particle` dataclass from src/data_structures.py. -/
structure Particle where
  active : Bool
  x : ℚ
  y : ℚ
  vx : ℚ
  vy : ℚ
  life : ℚ
  type : Option ParticleType
deriving DecidableEq, Repr

/-- The default-constructed particle `Particle()`. -/
def Particle.dflt : Particle :=
  { active := false, x := 0, y := 0, vx := 0, vy := 0, life := 0, type := none }

/-- `update_timer` from src/main.py: decrement a countdown toward 0,
scaled by the global time scale, clamped at 0. -/
def update_timer (time_scale value decrement : ℚ) : ℚ :=
  if value > 0 then max 0 (value - decrement * time_scale) else 0

/-! ## Per-particle update (src/particle_system.py, ParticlePool.update body) -/

/-- The friction branch of the particle update: `vx *= 0.95 ** time_scale`.
`pw` is the oracle for the Python float power operator. -/
def particleDamp (pw : ℚ → ℚ → ℚ) (time_scale : ℚ) (p : Particle) : Particle :=
  let friction_factor := pw (19/20) time_scale
  { p with vx := p.vx * friction_factor, vy := p.vy * friction_factor }

/-- The body of the `for idx in self.active_indices` loop of
`ParticlePool.update`: advance position and life, then either apply the
streak-attraction acceleration or the isotropic friction damping.
`sq` is the oracle for `math.sqrt`. -/
def updateParticle (time_scale : ℚ) (ship : Option Pos) (sq : ℚ → ℚ)
    (pw : ℚ → ℚ → ℚ) (p : Particle) : Particle :=
  let p1 := { p with
    x := p.x + p.vx * time_scale
    y := p.y + p.vy * time_scale
    life := p.life - time_scale }
  match ship with
  | some s =>
    if p1.type = some ParticleType.streak ∧ p1.life > Cfg.particle_streak_min_life then
      let dx := s.x - p1.x
      let dy := s.y - p1.y
      let dist_sq := dx * dx + dy * dy
      if dist_sq > Cfg.particle_streak_attraction_distance then
        let dist := sq dist_sq
        let attraction := Cfg.particle_streak_attraction_force
        { p1 with
          vx := p1.vx + dx / dist * attraction * time_scale
          vy := p1.vy + dy / dist * attraction * time_scale }
      else p1
    else particleDamp pw time_scale p1
  | none => particleDamp pw time_scale p1

/-! ## List helpers (indexing with a default, mirroring Python list indexing) -/

/-- `nthD d l i` is `l[i]` with default `d`, mirroring `self.pool[idx]`. -/
def nthD {α : Type} (d : α) : List α → ℕ → α
  | [], _ => d
  | a :: _, 0 => a
  | _ :: l, n + 1 => nthD d l n

theorem nthD_set_eq {α : Type} (d a : α) :
    ∀ (l : List α) (i : ℕ), i < l.length → nthD d (l.set i a) i = a
  | [], i, h => absurd h (by simp)
  | _ :: _, 0, _ => rfl
  | _ :: l, i + 1, h => nthD_set_eq d a l i (by simpa using h)

theorem nthD_set_ne {α : Type} (d a : α) :
    ∀ (l : List α) (i j : ℕ), i ≠ j → nthD d (l.set i a) j = nthD d l j
  | [], _, _, _ => rfl
  | _ :: _, 0, 0, h => absurd rfl h
  | _ :: _, 0, _ + 1, _ => rfl
  | _ :: _, _ + 1, 0, _ => rfl
  | _ :: l, i + 1, j + 1, h => nthD_set_ne d a l i j (fun e => h (by rw [e]))

theorem nthD_replicate {α : Type} (d x : α) :
    ∀ (n i : ℕ), i < n → nthD d (List.replicate n x) i = x
  | 0, i, h => absurd h (by simp)
  | _ + 1, 0, _ => rfl
  | n + 1, i + 1, h => nthD_replicate d x n i (by simpa using h)

theorem nthD_map {α β : Type} (d : α) (e : β) (f : α → β) :
    ∀ (l : List α) (i : ℕ), i < l.length → nthD e (l.map f) i = f (nthD d l i)
  | [], i, h => absurd h (by simp)
  | _ :: _, 0, _ => rfl
  | _ :: l, i + 1, h => nthD_map d e f l i (by simpa using h)

/-! ## Particle pool (src/particle_system.py, class ParticlePool) -/

/-- The `ParticlePool` state: a fixed list of particle slots plus the
parallel active/inactive index lists. -/
structure ParticlePool where
  pool : List Particle
  active_indices : List ℕ
  inactive_indices : List ℕ
deriving DecidableEq, Repr

/-- `ParticlePool.__init__(size)`. -/
def ParticlePool.init (size : ℕ) : ParticlePool :=
  { pool := List.replicate size Particle.dflt
    active_indices := []
    inactive_indices := List.range size }

/-- `ParticlePool.get`: pop the last inactive index, mark that slot
active, append it to the active list; `none` on exhaustion.  The returned
index stands for the returned particle object. -/
def ParticlePool.get (pp : ParticlePool) : Option ℕ × ParticlePool :=
  if h : pp.inactive_indices = [] then (none, pp)
  else
    let idx := pp.inactive_indices.getLast h
    (some idx,
      { pool := pp.pool.set idx { nthD Particle.dflt pp.pool idx with active := true }
        active_indices := pp.active_indices ++ [idx]
        inactive_indices := pp.inactive_indices.dropLast })

/-- The `for idx in self.active_indices` loop of `ParticlePool.update`:
each active slot is updated; surviving indices go to `new_active`, dead
slots are deactivated and their index appended to the inactive list. -/
def poolUpdateGo (time_scale : ℚ) (ship : Option Pos) (sq : ℚ → ℚ) (pw : ℚ → ℚ → ℚ) :
    List ℕ → List Particle → List ℕ → List ℕ → List Particle × List ℕ × List ℕ
  | [], pool, new_active, inactive => (pool, new_active, inactive)
  | idx :: rest, pool, new_active, inactive =>
    let p2 := updateParticle time_scale ship sq pw (nthD Particle.dflt pool idx)
    if p2.life > 0 then
      poolUpdateGo time_scale ship sq pw rest (pool.set idx p2) (new_active ++ [idx]) inactive
    else
      poolUpdateGo time_scale ship sq pw rest (pool.set idx { p2 with active := false })
        new_active (inactive ++ [idx])

/-- `ParticlePool.update(time_scale, ship)`. -/
def ParticlePool.update (time_scale : ℚ) (ship : Option Pos) (sq : ℚ → ℚ)
    (pw : ℚ → ℚ → ℚ) (pp : ParticlePool) : ParticlePool :=
  let r := poolUpdateGo time_scale ship sq pw pp.active_indices pp.pool [] pp.inactive_indices
  { pool := r.1, active_indices := r.2.1, inactive_indices := r.2.2 }

/-- `ParticlePool.clear`. -/
def ParticlePool.clear (pp : ParticlePool) : ParticlePool :=
  { pool := pp.pool.map (fun p => { p with active := false })
    active_indices := []
    inactive_indices := List.range pp.pool.length }

/-- The pool invariant: active and inactive indices together are a
permutation of all slot indices (hence disjoint, duplicate-free and
exhaustive), and a slot's `active` flag holds exactly when its index is
in the active list. -/
def PoolInv (pp : ParticlePool) : Prop :=
  (pp.active_indices ++ pp.inactive_indices).Perm (List.range pp.pool.length) ∧
  ∀ i, i < pp.pool.length →
    ((nthD Particle.dflt pp.pool i).active = true ↔ i ∈ pp.active_indices)

theorem updateParticle_preserves_active (time_scale : ℚ) (ship : Option Pos)
    (sq : ℚ → ℚ) (pw : ℚ → ℚ → ℚ) (p : Particle) :
    (updateParticle time_scale ship sq pw p).active = p.active := by
  unfold updateParticle particleDamp
  cases ship
  · rfl
  · dsimp only
    split
    · split <;> rfl
    · rfl

theorem poolUpdateGo_spec (time_scale : ℚ) (ship : Option Pos) (sq : ℚ → ℚ)
    (pw : ℚ → ℚ → ℚ) (as : List ℕ) :
    ∀ (pool : List Particle) (na ia : List ℕ),
      (as ++ (na ++ ia)).Perm (List.range pool.length) →
      (∀ i, i < pool.length →
        ((nthD Particle.dflt pool i).active = true ↔ i ∈ as ++ na)) →
      (poolUpdateGo time_scale ship sq pw as pool na ia).1.length = pool.length ∧
      ((poolUpdateGo time_scale ship sq pw as pool na ia).2.1 ++
        (poolUpdateGo time_scale ship sq pw as pool na ia).2.2).Perm
          (List.range pool.length) ∧
      (∀ i, i < pool.length →
        ((nthD Particle.dflt (poolUpdateGo time_scale ship sq pw as pool na ia).1 i).active
            = true ↔
          i ∈ (poolUpdateGo time_scale ship sq pw as pool na ia).2.1)) := by
  induction as with
  | nil =>
    intro pool na ia hperm hflag
    refine ⟨rfl, by simpa using hperm, ?_⟩
    intro i hi
    simpa using hflag i hi
  | cons idx rest ih =>
    intro pool na ia hperm hflag
    have hmem : idx ∈ List.range pool.length := hperm.mem_iff.mp (by simp)
    have hidx : idx < pool.length := List.mem_range.mp hmem
    have hnd : ((idx :: rest) ++ (na ++ ia)).Nodup :=
      hperm.symm.nodup (List.nodup_range pool.length)
    have hnotmem : idx ∉ rest ++ (na ++ ia) := (List.nodup_cons.mp hnd).1
    have hidx_rest : idx ∉ rest := fun hc => hnotmem (by simp [hc])
    have hidx_na : idx ∉ na := fun hc => hnotmem (by simp [hc])
    have hactive : (nthD Particle.dflt pool idx).active = true :=
      (hflag idx hidx).mpr (by simp)
    set p2 := updateParticle time_scale ship sq pw (nthD Particle.dflt pool idx) with hp2
    have hp2active : p2.active = true := by
      rw [hp2, updateParticle_preserves_active]; exact hactive
    by_cases hlife : p2.life > 0
    · -- surviving particle: idx moves to new_active
      have hstep : poolUpdateGo time_scale ship sq pw (idx :: rest) pool na ia =
          poolUpdateGo time_scale ship sq pw rest (pool.set idx p2) (na ++ [idx]) ia := by
        simp only [poolUpdateGo, ← hp2, if_pos hlife]
      rw [hstep]
      have hlen : (pool.set idx p2).length = pool.length := by simp
      have hperm2 : (rest ++ ((na ++ [idx]) ++ ia)).Perm
          (List.range (pool.set idx p2).length) := by
        rw [hlen, List.append_assoc na [idx] ia]
        exact (List.Perm.append_left rest List.perm_middle).trans
          (List.perm_middle.trans hperm)
      have hflag2 : ∀ i, i < (pool.set idx p2).length →
          ((nthD Particle.dflt (pool.set idx p2) i).active = true ↔
            i ∈ rest ++ (na ++ [idx])) := by
        intro i hi
        rw [hlen] at hi
        by_cases hcase : i = idx
        · subst hcase
          rw [nthD_set_eq _ _ _ _ hidx]
          simp [hp2active]
        · rw [nthD_set_ne _ _ _ _ _ (fun e => hcase e.symm)]
          rw [hflag i hi]
          simp only [List.mem_append, List.mem_cons, List.mem_singleton,
            List.not_mem_nil, or_false]
          tauto
      have hres := ih (pool.set idx p2) (na ++ [idx]) ia hperm2 hflag2
      rw [hlen] at hres
      exact hres
    · -- dead particle: idx moves to the inactive list
      have hstep : poolUpdateGo time_scale ship sq pw (idx :: rest) pool na ia =
          poolUpdateGo time_scale ship sq pw rest
            (pool.set idx { p2 with active := false }) na (ia ++ [idx]) := by
        simp only [poolUpdateGo, ← hp2, if_neg hlife]
      rw [hstep]
      have hlen : (pool.set idx { p2 with active := false }).length = pool.length := by simp
      have hperm2 : (rest ++ (na ++ (ia ++ [idx]))).Perm
          (List.range (pool.set idx { p2 with active := false }).length) := by
        rw [hlen]
        exact ((List.Perm.append_left rest
            (List.Perm.append_left na (List.perm_append_singleton idx ia))).trans
          ((List.Perm.append_left rest List.perm_middle).trans
            (List.perm_middle.trans hperm)))
      have hflag2 : ∀ i, i < (pool.set idx { p2 with active := false }).length →
          ((nthD Particle.dflt (pool.set idx { p2 with active := false }) i).active = true ↔
            i ∈ rest ++ na) := by
        intro i hi
        rw [hlen] at hi
        by_cases hcase : i = idx
        · subst hcase
          rw [nthD_set_eq _ _ _ _ hidx]
          simp [hidx_rest, hidx_na]
        · rw [nthD_set_ne _ _ _ _ _ (fun e => hcase e.symm)]
          rw [hflag i hi]
          simp only [List.mem_append, List.mem_cons]
          tauto
      have hres := ih (pool.set idx { p2 with active := false }) na (ia ++ [idx]) hperm2 hflag2
      rw [hlen] at hres
      exact hres

theorem PoolInv_init (size : ℕ) : PoolInv (ParticlePool.init size) := by
  constructor
  · simp [ParticlePool.init]
  · intro i hi
    simp only [ParticlePool.init] at hi ⊢
    rw [nthD_replicate _ _ _ _ (by simpa using hi)]
    simp [Particle.dflt]

theorem PoolInv_get (pp : ParticlePool) (h : PoolInv pp) : PoolInv (pp.get).2 := by
  obtain ⟨hperm, hflag⟩ := h
  by_cases he : pp.inactive_indices = []
  · simp only [ParticlePool.get, dif_pos he]
    exact ⟨hperm, hflag⟩
  · simp only [ParticlePool.get, dif_neg he]
    have hsplit : pp.inactive_indices.dropLast ++ [pp.inactive_indices.getLast he] =
        pp.inactive_indices := List.dropLast_append_getLast he
    have hmem : pp.inactive_indices.getLast he ∈ List.range pp.pool.length :=
      hperm.mem_iff.mp (List.mem_append.mpr (Or.inr (List.getLast_mem he)))
    have hidxlt : pp.inactive_indices.getLast he < pp.pool.length := List.mem_range.mp hmem
    constructor
    · dsimp only
      rw [List.length_set, List.append_assoc]
      have h1 : (pp.active_indices ++
          (pp.inactive_indices.dropLast ++ [pp.inactive_indices.getLast he])).Perm
            (List.range pp.pool.length) := by
        rw [hsplit]; exact hperm
      exact (List.Perm.append_left _ ((List.perm_append_singleton _ _).symm)).trans h1
    · dsimp only
      intro i hi
      rw [List.length_set] at hi
      by_cases hcase : i = pp.inactive_indices.getLast he
      · subst hcase
        rw [nthD_set_eq _ _ _ _ hidxlt]
        simp
      · rw [nthD_set_ne _ _ _ _ _ (fun e => hcase e.symm)]
        rw [hflag i hi]
        simp [hcase]

theorem PoolInv_get_none (pp : ParticlePool) :
    (pp.get).1 = none ↔ pp.inactive_indices = [] := by
  unfold ParticlePool.get
  by_cases he : pp.inactive_indices = [] <;> simp [he]

theorem PoolInv_update (pp : ParticlePool) (time_scale : ℚ) (ship : Option Pos)
    (sq : ℚ → ℚ) (pw : ℚ → ℚ → ℚ) (h : PoolInv pp) :
    PoolInv (pp.update time_scale ship sq pw) := by
  obtain ⟨hperm, hflag⟩ := h
  have hspec := poolUpdateGo_spec time_scale ship sq pw pp.active_indices pp.pool []
    pp.inactive_indices (by simpa using hperm) (by intro i hi; simpa using hflag i hi)
  obtain ⟨hlen, hperm2, hflag2⟩ := hspec
  refine ⟨?_, ?_⟩
  · simp only [ParticlePool.update]
    rw [hlen]
    exact hperm2
  · intro i hi
    simp only [ParticlePool.update] at hi ⊢
    rw [hlen] at hi
    exact hflag2 i hi

theorem PoolInv_clear (pp : ParticlePool) : PoolInv pp.clear := by
  constructor
  · simp [ParticlePool.clear]
  · intro i hi
    simp only [ParticlePool.clear] at hi ⊢
    rw [nthD_map Particle.dflt _ _ _ _ (by simpa using hi)]
    simp

theorem PoolInv_capacity (pp : ParticlePool) (h : PoolInv pp) :
    pp.active_indices.length ≤ pp.pool.length := by
  have := h.1.length_eq
  simp only [List.length_append, List.length_range] at this
  omega

theorem PoolInv_disjoint (pp : ParticlePool) (h : PoolInv pp) :
    pp.active_indices.Disjoint pp.inactive_indices ∧
    pp.active_indices.Nodup ∧ pp.inactive_indices.Nodup ∧
    (∀ i, (i ∈ pp.active_indices ∨ i ∈ pp.inactive_indices) ↔ i < pp.pool.length) := by
  have hnd : (pp.active_indices ++ pp.inactive_indices).Nodup :=
    h.1.symm.nodup (List.nodup_range pp.pool.length)
  obtain ⟨h1, h2, h3⟩ := List.nodup_append.mp hnd
  refine ⟨h3, h1, h2, ?_⟩
  intro i
  rw [← List.mem_append, h.1.mem_iff, List.mem_range]

/-! ## Helper views for the per-particle update -/

/-- `ship.x - particle.x` as computed inside `ParticlePool.update`, after the
position advance of the same iteration. -/
def particleDx (time_scale : ℚ) (s : Pos) (p : Particle) : ℚ :=
  s.x - (p.x + p.vx * time_scale)

/-- `ship.y - particle.y` as computed inside `ParticlePool.update`. -/
def particleDy (time_scale : ℚ) (s : Pos) (p : Particle) : ℚ :=
  s.y - (p.y + p.vy * time_scale)

/-- `dist_sq` as computed inside `ParticlePool.update`. -/
def particleDistSq (time_scale : ℚ) (s : Pos) (p : Particle) : ℚ :=
  particleDx time_scale s p * particleDx time_scale s p +
  particleDy time_scale s p * particleDy time_scale s p

/-- **C3** (amended): with a ship present, an active particle tagged
`streak` whose (decremented) life is above `particle_streak_min_life`
receives the attraction acceleration toward the ship exactly when its
SQUARED distance from the ship exceeds `Cfg.particle_streak_attraction_distance`
(the source compares `dist_sq`, not `dist`, against that constant); below
that it keeps its velocity unchanged, and every other particle has its
velocity damped by the friction factor `0.95 ** time_scale`. -/
theorem C3_streak_attraction (time_scale : ℚ) (s : Pos) (sq : ℚ → ℚ)
    (pw : ℚ → ℚ → ℚ) (p : Particle) :
    (p.type = some ParticleType.streak →
     p.life - time_scale > Cfg.particle_streak_min_life →
      ((particleDistSq time_scale s p > Cfg.particle_streak_attraction_distance →
        (updateParticle time_scale (some s) sq pw p).vx =
          p.vx + particleDx time_scale s p / sq (particleDistSq time_scale s p) *
            Cfg.particle_streak_attraction_force * time_scale ∧
        (updateParticle time_scale (some s) sq pw p).vy =
          p.vy + particleDy time_scale s p / sq (particleDistSq time_scale s p) *
            Cfg.particle_streak_attraction_force * time_scale) ∧
       (¬ particleDistSq time_scale s p > Cfg.particle_streak_attraction_distance →
        (updateParticle time_scale (some s) sq pw p).vx = p.vx ∧
        (updateParticle time_scale (some s) sq pw p).vy = p.vy))) ∧
    (¬ (p.type = some ParticleType.streak ∧
        p.life - time_scale > Cfg.particle_streak_min_life) →
      (updateParticle time_scale (some s) sq pw p).vx = p.vx * pw (19/20) time_scale ∧
      (updateParticle time_scale (some s) sq pw p).vy = p.vy * pw (19/20) time_scale) := by
  constructor
  · intro htype hlife
    constructor
    · intro hfar
      simp only [updateParticle]
      split
      · split
        · constructor <;> simp [particleDx, particleDy, particleDistSq]
        · next h2 =>
            exact absurd (by simpa [particleDistSq, particleDx, particleDy] using hfar) h2
      · next h => exact absurd ⟨by simpa using htype, by simpa using hlife⟩ h
    · intro hnear
      simp only [updateParticle]
      split
      · split
        · next h2 =>
            exact absurd (by simpa [particleDistSq, particleDx, particleDy] using h2) hnear
        · exact ⟨rfl, rfl⟩
      · next h => exact absurd ⟨by simpa using htype, by simpa using hlife⟩ h
  · intro hno
    simp only [updateParticle]
    split
    · next h => exact absurd ⟨by simpa using h.1, by simpa using h.2⟩ hno
    · simp [particleDamp]

/-- Concrete streak particle used to refute the claimed attraction
threshold semantics. -/
def streakParticleC3 : Particle :=
  { active := true, x := 0, y := 0, vx := 0, vy := 0, life := 10,
    type := some ParticleType.streak }

/-- **C3** (counterexample): a streak particle sitting 50 units from the
ship — closer than the claimed threshold distance of 100 — nevertheless
receives the attraction acceleration (`vx` jumps from `0` to `3/20`),
because the code compares the squared distance (2500) against the
threshold (100).  Under the claim the velocity would have stayed `0`
(damping a zero velocity).  The oracle `fun _ => 50` is the exact square
root of 2500. -/
theorem C3_counterexample :
    (updateParticle 1 (some { x := 50, y := 0 }) (fun _ => 50) (fun _ _ => 1)
        streakParticleC3).vx = 3/20 ∧
    (3/20 : ℚ) ≠ streakParticleC3.vx ∧
    (50 : ℚ) * 50 ≤ Cfg.particle_streak_attraction_distance *
      Cfg.particle_streak_attraction_distance := by
  refine ⟨?_, by with_unfolding_all decide, by with_unfolding_all decide⟩
  with_unfolding_all decide

/-- Part of the witness computation for C3. -/
theorem C3_streak_attraction_witness :
    (updateParticle 1 (some { x := 50, y := 0 }) (fun _ => 50) (fun _ _ => 1)
        streakParticleC3).vx =
      streakParticleC3.vx + 50 / 50 * Cfg.particle_streak_attraction_force * 1 := by
  have h := (C3_streak_attraction 1 { x := 50, y := 0 } (fun _ => 50) (fun _ _ => 1)
    streakParticleC3).1 rfl (by with_unfolding_all decide)
  have h2 := (h.1 (by with_unfolding_all decide)).1
  simpa [particleDx, particleDistSq, streakParticleC3] using h2

/-- **C10**: the particle pool maintains — across `init`, `get`, `update`
and `clear` — the invariant that active and inactive index lists
partition the slot indices (disjoint, duplicate-free, jointly
exhaustive), each slot's `active` flag holds exactly when its index is in
the active list, `get` signals exhaustion exactly when the inactive list
is empty, and the number of active particles never exceeds capacity. -/
theorem C10_particle_pool_invariant :
    (∀ size, PoolInv (ParticlePool.init size)) ∧
    (∀ pp : ParticlePool, PoolInv pp → PoolInv (pp.get).2) ∧
    (∀ pp : ParticlePool, (pp.get).1 = none ↔ pp.inactive_indices = []) ∧
    (∀ (pp : ParticlePool) time_scale ship sq pw, PoolInv pp →
      PoolInv (pp.update time_scale ship sq pw)) ∧
    (∀ pp : ParticlePool, PoolInv pp.clear) ∧
    (∀ pp : ParticlePool, PoolInv pp →
      pp.active_indices.Disjoint pp.inactive_indices ∧
      (∀ i, (i ∈ pp.active_indices ∨ i ∈ pp.inactive_indices) ↔ i < pp.pool.length) ∧
      pp.active_indices.Nodup ∧ pp.inactive_indices.Nodup ∧
      pp.active_indices.length ≤ pp.pool.length) := by
  refine ⟨PoolInv_init, PoolInv_get, PoolInv_get_none, ?_, PoolInv_clear, ?_⟩
  · intro pp time_scale ship sq pw h
    exact PoolInv_update pp time_scale ship sq pw h
  · intro pp h
    obtain ⟨h1, h2, h3, h4⟩ := PoolInv_disjoint pp h
    exact ⟨h1, h4, h2, h3, PoolInv_capacity pp h⟩

/-- Witness for C10 at a concrete pool of capacity 3. -/
theorem C10_particle_pool_invariant_witness :
    PoolInv ((ParticlePool.init 3).get).2 ∧
    ((ParticlePool.init 3).update 1 none (fun q => q) (fun _ x => x)).active_indices.length
      ≤ ((ParticlePool.init 3).update 1 none (fun q => q) (fun _ x => x)).pool.length := by
  obtain ⟨hinit, hget, _, hupd, _, hrest⟩ := C10_particle_pool_invariant
  exact ⟨hget _ (hinit 3),
    (hrest _ (hupd _ 1 none (fun q => q) (fun _ x => x) (hinit 3))).2.2.2.2⟩

/-! ## Combat-core data model (src/data_structures.py and g_game_state in src/main.py) -/

inductive EnemyAIType where
  | hunter
  | circler
deriving DecidableEq, Repr

/-- `Enemy` dataclass from src/data_structures.py. -/
structure Enemy where
  x : ℚ
  y : ℚ
  vx : ℚ
  vy : ℚ
  angle : ℚ
  fire_cooldown : ℚ
  health : ℤ
  max_health : ℤ
  ai_type : EnemyAIType
  orbit_angle : ℚ
  radius : ℚ
  hit_flash : ℚ
deriving DecidableEq, Repr

/-- One `{x, y, angle, life}` sample of the ship dash trail. -/
structure TrailSample where
  x : ℚ
  y : ℚ
  angle : ℚ
  life : ℚ
deriving DecidableEq, Repr

/-- `ShipState` dataclass from src/data_structures.py (the cosmetic
`powerup_flash_color` tuple is omitted). -/
structure ShipState where
  x : ℚ
  y : ℚ
  angle : ℚ
  vel_x : ℚ
  vel_y : ℚ
  invulnerable : ℚ
  rapid_fire : ℚ
  triple_shot : ℚ
  shield_active : ℚ
  powerup_flash : ℚ
  respawning : ℚ
  aura_pulse : ℚ
  dashing : ℚ
  dash_trail : List TrailSample
deriving DecidableEq, Repr

inductive FinisherPhase where
  | idle
  | lock_on
  | pre_impact
  | impact
  | post_impact
deriving DecidableEq, Repr

/-- `g_game_state["combo"]`. -/
structure ComboState where
  current : ℕ
  timer : ℚ
  kills : ℕ
  max : ℕ
  pulse : ℚ
deriving DecidableEq, Repr

/-- `g_game_state["finisher"]`.  The Python target is an object reference
compared structurally (`target in g_enemies` uses dataclass equality), so
an `Option Enemy` is a faithful embedding. -/
structure FinisherState where
  meter : ℚ
  ready : Bool
  executing : Bool
  phase : FinisherPhase
  execution_timer : ℤ
  target : Option Enemy
  shockwave_radius : ℚ
  lock_on_progress : ℚ
  impact_x : ℚ
  impact_y : ℚ
deriving DecidableEq, Repr

/-- The slice of `g_game_state` (plus `g_ship` and `g_enemies`) that the
combat core reads and writes.  Cosmetic effect state (screen shake,
damage-flash colours, particles, floating texts, sounds, powerup spawns)
is omitted: it never feeds back into these fields. -/
structure GameState where
  score : ℤ
  high_score : ℤ
  lives : ℤ
  game_over : Bool
  paused : Bool
  show_upgrade_menu : Bool
  untouchable_level : Bool
  pause_debounce : ℤ
  frame_count : ℕ
  time_scale : ℚ
  dash_cooldown : ℚ
  combo : ComboState
  finisher : FinisherState
  ship : ShipState
  enemies : List Enemy
  boss_kills : ℤ
deriving DecidableEq, Repr

/-! ## Combo and finisher-meter operations (src/main.py) -/

/-- The tiered finisher fill rate selected in `add_combo` from the combo
size reached by the current kill. -/
def comboFillRate (current : ℕ) : ℚ :=
  if current ≥ Cfg.combo_high_threshold then Cfg.combo_fill_rate_high
  else if current ≥ Cfg.combo_medium_threshold then Cfg.combo_fill_rate_medium
  else Cfg.combo_fill_rate_base

/-- The combo bookkeeping at the top of `add_combo`: reset the in-streak
kill counter when a fresh streak starts, then extend the streak and
reset the timeout. -/
def comboAfterKill (c0 : ComboState) : ComboState :=
  let c1 := if c0.current = 0 then { c0 with kills := 0 } else c0
  { c1 with
    current := c1.current + 1
    timer := Cfg.combo_timeout
    kills := c1.kills + 1 }

/-- The finisher-meter fill step of `add_combo`, applied only while the
finisher is not ready. -/
def finisherMeterFill (current : ℕ) (f0 : FinisherState) : FinisherState :=
  if f0.ready = false then
    let fill_rate := comboFillRate current
    let m := min (100 : ℚ) (f0.meter + fill_rate)
    { f0 with meter := m, ready := if m ≥ 100 then true else f0.ready }
  else f0

/-- The cosmetic pulse update at the bottom of `add_combo` (the 10th-kill
milestone branch). -/
def comboPulseAfterKill (c2 : ComboState) : ComboState :=
  if c2.current ≥ Cfg.combo_text_threshold ∧
      (c2.kills % Cfg.combo_pulse_interval = 0 ∧
        c2.current ≥ Cfg.combo_text_threshold) then
    { c2 with pulse := min Cfg.combo_max_pulse ((c2.current : ℚ) * 2) }
  else c2

/-- `add_combo` (src/main.py lines 1697-1754): extend the streak, reset
the combo timeout, fill the finisher meter while not ready, and update
the cosmetic pulse.  Floating text, sounds, screen shake and achievement
checks are cosmetic and omitted. -/
def add_combo (st : GameState) : GameState :=
  let c2 := comboAfterKill st.combo
  { st with
    combo := comboPulseAfterKill c2
    finisher := finisherMeterFill c2.current st.finisher }

/-- The timeout countdown half of `update_combo_system`: when the
running timer hits 0, fold `current` into `max` and clear the streak. -/
def comboTimeoutStep (time_scale : ℚ) (c : ComboState) : ComboState :=
  if c.timer > 0 then
    let t := update_timer time_scale c.timer 1
    if t ≤ 0 then
      { c with
        timer := t
        max := if c.current > c.max then c.current else c.max
        current := 0
        kills := 0 }
    else { c with timer := t }
  else c

/-- The pulse-decay half of `update_combo_system`. -/
def comboPulseFade (time_scale : ℚ) (c1 : ComboState) : ComboState :=
  if c1.pulse > 0 then
    { c1 with pulse := c1.pulse - Cfg.combo_pulse_fade_rate * time_scale }
  else c1

/-- `update_combo_system` (src/main.py lines 2876-2896). -/
def update_combo_system (st : GameState) : GameState :=
  { st with combo := comboPulseFade st.time_scale (comboTimeoutStep st.time_scale st.combo) }

/-- `update_finisher_meter` (src/main.py lines 2899-2916). -/
def update_finisher_meter (st : GameState) : GameState :=
  let f := st.finisher
  if st.combo.current = 0 ∧ f.meter > 0 then
    let decay_per_frame := (2 : ℚ) / (Cfg.fps : ℚ)
    let m := max (0 : ℚ) (f.meter - decay_per_frame * st.time_scale)
    let f1 := { f with meter := m }
    let f2 := if m < 100 then { f1 with ready := false } else f1
    { st with finisher := f2 }
  else st

/-! ## Finisher execution state machine (src/main.py lines 1813-2006) -/

/-- `Cfg.finisher_invuln_buffer * Cfg.fps` rounded down as in
`int(Cfg.finisher_invuln_buffer * Cfg.fps)`. -/
def finisherInvulnBuffer : ℤ := ⌊(1/2 : ℚ) * (Cfg.fps : ℚ)⌋

/-- `start_finisher_execution(target)` (src/main.py lines 1813-1855).
`atan2O` and `sinCosO` are oracles for `math.atan2` (in degrees) and the
cached `get_sin_cos`. -/
def start_finisher_execution (scale : ℚ) (atan2O : ℚ → ℚ → ℚ)
    (sinCosO : ℚ → ℚ × ℚ) (target : Enemy) (st : GameState) : GameState :=
  let f0 := st.finisher
  let f1 := { f0 with
    executing := true
    phase := FinisherPhase.lock_on
    execution_timer := Cfg.finisher_lock_on_time
    target := some target
    lock_on_progress := 0 }
  let angle_to_target := atan2O (target.y - st.ship.y) (target.x - st.ship.x)
  let sc := sinCosO angle_to_target
  let dash_distance := Cfg.ship_max_speed * scale * Cfg.dash_speed_multiplier *
    Cfg.dash_duration
  let f2 := { f1 with
    impact_x := st.ship.x + sc.2 * dash_distance / 2
    impact_y := st.ship.y + sc.1 * dash_distance / 2 }
  let total_finisher_frames := Cfg.finisher_lock_on_time + Cfg.finisher_pre_impact_time +
    Cfg.finisher_impact_time + Cfg.finisher_post_impact_time
  let invuln_duration : ℚ := ((total_finisher_frames + finisherInvulnBuffer : ℤ) : ℚ)
  { st with
    finisher := f2
    ship := { st.ship with
      angle := angle_to_target
      invulnerable := max st.ship.invulnerable invuln_duration }
    time_scale := Cfg.finisher_lock_on_scale }

/-- The in-range body of the `apply_shockwave_damage` loop acting on one
enemy: tiered damage (higher close to the centre), hit flash, and
knockback proportional to `1 - dist/radius` directed away from the
centre. -/
def shockwaveDamageEnemy (x y radius scale : ℚ) (sq : ℚ → ℚ) (e : Enemy) : Enemy :=
  let dist_sq := (x - e.x) * (x - e.x) + (y - e.y) * (y - e.y)
  let dist := sq dist_sq
  let damage := if dist < radius * Cfg.finisher_shockwave_close_range
    then Cfg.finisher_damage_close else Cfg.finisher_damage_far
  let e1 : Enemy := { e with
    health := e.health - damage
    hit_flash := Cfg.asteroid_hit_flash_duration }
  if dist > 0 then
    let knockback_force := (1 - dist / radius) * Cfg.finisher_knockback_force * scale
    { e1 with
      vx := e1.vx + (e.x - x) / dist * knockback_force
      vy := e1.vy + (e.y - y) / dist * knockback_force }
  else e1

/-- The per-enemy loop of `apply_shockwave_damage` (src/main.py lines
1964-2006), folded over a snapshot of `g_enemies` while accumulating the
surviving list; dead enemies award score and a combo kill. -/
def applyShockwaveGo (x y radius scale : ℚ) (sq : ℚ → ℚ) :
    List Enemy → List Enemy → GameState → List Enemy × GameState
  | [], acc, st => (acc, st)
  | e :: rest, acc, st =>
    let dist_sq := (x - e.x) * (x - e.x) + (y - e.y) * (y - e.y)
    if dist_sq < radius * radius then
      let e2 := shockwaveDamageEnemy x y radius scale sq e
      if e2.health ≤ 0 then
        applyShockwaveGo x y radius scale sq rest acc
          (add_combo { st with score := st.score + Cfg.enemy_score })
      else
        applyShockwaveGo x y radius scale sq rest (acc ++ [e2]) st
    else
      applyShockwaveGo x y radius scale sq rest (acc ++ [e]) st

/-- `apply_shockwave_damage(x, y, radius)`. -/
def apply_shockwave_damage (x y radius scale : ℚ) (sq : ℚ → ℚ)
    (st : GameState) : GameState :=
  let r := applyShockwaveGo x y radius scale sq st.enemies [] st
  { r.2 with enemies := r.1 }

/-- The `LOCK_ON` branch of `update_finisher` (transition to pre-impact:
reset meter and ready, start the ship "dashing" for the rest of the
sequence). -/
def finisherLockOnTransition (st : GameState) (f : FinisherState) : GameState :=
  let total_finisher_frames := Cfg.finisher_pre_impact_time +
    Cfg.finisher_impact_time + Cfg.finisher_post_impact_time
  { st with
    finisher := { f with
      phase := FinisherPhase.pre_impact
      execution_timer := Cfg.finisher_pre_impact_time
      meter := 0
      ready := false }
    ship := { st.ship with dashing := ((total_finisher_frames : ℤ) : ℚ) } }

/-- The `PRE_IMPACT` branch of `update_finisher` (transition to impact:
drop into bullet time; if the target is still alive, award score, reset
the dash cooldown and the combo timeout, seed the shockwave and remove
the target). -/
def finisherPreImpactTransition (scale : ℚ) (st : GameState) (f : FinisherState) :
    GameState :=
  let f1 := { f with
    phase := FinisherPhase.impact
    execution_timer := Cfg.finisher_impact_time }
  let stA := { st with finisher := f1, time_scale := Cfg.finisher_time_scale }
  match f1.target with
  | some t =>
    if t ∈ stA.enemies then
      { stA with
        finisher := { f1 with
          impact_x := t.x
          impact_y := t.y
          shockwave_radius := 10 * scale }
        score := stA.score + Cfg.finisher_score
        dash_cooldown := 0
        combo := { stA.combo with timer := Cfg.combo_timeout }
        enemies := stA.enemies.erase t }
    else stA
  | none => stA

/-- The `IMPACT` branch of `update_finisher` (animate the shockwave
radius from its progress, fire the two damage checkpoints, and move to
post-impact — restoring `time_scale` to 1 — when the timer runs out). -/
def finisherImpactStep (scale : ℚ) (sq : ℚ → ℚ) (st : GameState) (f : FinisherState) :
    GameState :=
  let max_radius := Cfg.finisher_shockwave_radius * scale
  let progress := 1 - ((f.execution_timer : ℚ) / ((Cfg.finisher_impact_time : ℤ) : ℚ))
  let f1 := { f with
    shockwave_radius := 10 * scale + (max_radius - 10 * scale) * progress }
  let stA := { st with finisher := f1 }
  -- Apply damage at specific points
  let stB := ([3/10, 6/10] : List ℚ).foldl
    (fun acc dmg_point =>
      if dmg_point ≤ progress ∧ progress < dmg_point + 1/50 then
        apply_shockwave_damage acc.finisher.impact_x acc.finisher.impact_y
          acc.finisher.shockwave_radius scale sq acc
      else acc) stA
  if f1.execution_timer ≤ 1 then
    { stB with
      finisher := { stB.finisher with
        phase := FinisherPhase.post_impact
        execution_timer := Cfg.finisher_post_impact_time }
      time_scale := 1 }
  else stB

/-- The `POST_IMPACT` branch of `update_finisher` (cleanup back to
idle). -/
def finisherPostImpactCleanup (st : GameState) (f : FinisherState) : GameState :=
  { st with
    finisher := { f with
      executing := false
      phase := FinisherPhase.idle
      target := none
      shockwave_radius := 0
      lock_on_progress := 0 }
    ship := { st.ship with dashing := 0 } }

/-- The trailing `if finisher_state["phase"] == LOCK_ON` block of
`update_finisher`. -/
def finisherLockOnProgressUpdate (st1 : GameState) : GameState :=
  if st1.finisher.phase = FinisherPhase.lock_on then
    { st1 with
      finisher := { st1.finisher with
        lock_on_progress :=
          1 - ((st1.finisher.execution_timer : ℚ) /
            ((Cfg.finisher_lock_on_time : ℤ) : ℚ)) } }
  else st1

/-- `update_finisher` (src/main.py lines 1858-1961).  Note the faithful
control flow: ALL phase branches, including the IMPACT shockwave
animation and the two damage checkpoints, sit under the
`execution_timer <= 0` test, exactly as in the source. -/
def update_finisher (scale : ℚ) (sq : ℚ → ℚ) (st0 : GameState) : GameState :=
  if st0.finisher.executing = false then st0
  else
    let f := { st0.finisher with execution_timer := st0.finisher.execution_timer - 1 }
    let st := { st0 with finisher := f }
    let st1 :=
      if f.execution_timer ≤ 0 then
        if f.phase = FinisherPhase.lock_on then finisherLockOnTransition st f
        else if f.phase = FinisherPhase.pre_impact then
          finisherPreImpactTransition scale st f
        else if f.phase = FinisherPhase.impact then finisherImpactStep scale sq st f
        else if f.phase = FinisherPhase.post_impact then finisherPostImpactCleanup st f
        else st
      else st
    finisherLockOnProgressUpdate st1

/-! ## Meter-range invariant lemmas -/

/-- The finisher meter is within its documented `[0, 100]` range. -/
def MeterInRange (st : GameState) : Prop :=
  0 ≤ st.finisher.meter ∧ st.finisher.meter ≤ 100

theorem comboFillRate_nonneg (current : ℕ) : 0 ≤ comboFillRate current := by
  unfold comboFillRate
  split
  · norm_num [Cfg.combo_fill_rate_high]
  · split
    · norm_num [Cfg.combo_fill_rate_medium]
    · norm_num [Cfg.combo_fill_rate_base]

theorem finisherMeterFill_bounds (current : ℕ) (f0 : FinisherState)
    (h0 : 0 ≤ f0.meter) (h1 : f0.meter ≤ 100) :
    0 ≤ (finisherMeterFill current f0).meter ∧
      (finisherMeterFill current f0).meter ≤ 100 := by
  simp only [finisherMeterFill]
  split
  · exact ⟨le_min (by norm_num) (add_nonneg h0 (comboFillRate_nonneg _)),
      min_le_left _ _⟩
  · exact ⟨h0, h1⟩

theorem add_combo_meter_bounds (st : GameState) (h : MeterInRange st) :
    MeterInRange (add_combo st) :=
  finisherMeterFill_bounds (comboAfterKill st.combo).current st.finisher h.1 h.2

theorem comboAfterKill_current (c : ComboState) :
    (comboAfterKill c).current = c.current + 1 := by
  simp only [comboAfterKill]
  split
  · rfl
  · rfl

theorem comboAfterKill_timer (c : ComboState) :
    (comboAfterKill c).timer = Cfg.combo_timeout := rfl

theorem comboPulseAfterKill_current (c : ComboState) :
    (comboPulseAfterKill c).current = c.current := by
  simp only [comboPulseAfterKill]
  split
  · rfl
  · rfl

theorem comboPulseAfterKill_timer (c : ComboState) :
    (comboPulseAfterKill c).timer = c.timer := by
  simp only [comboPulseAfterKill]
  split
  · rfl
  · rfl

theorem comboPulseFade_current (ts : ℚ) (c : ComboState) :
    (comboPulseFade ts c).current = c.current := by
  simp only [comboPulseFade]
  split
  · rfl
  · rfl

theorem comboPulseFade_max (ts : ℚ) (c : ComboState) :
    (comboPulseFade ts c).max = c.max := by
  simp only [comboPulseFade]
  split
  · rfl
  · rfl

theorem comboTimeoutStep_timeout (ts : ℚ) (c : ComboState) (h1 : c.timer > 0)
    (h2 : update_timer ts c.timer 1 ≤ 0) :
    (comboTimeoutStep ts c).current = 0 ∧ c.current ≤ (comboTimeoutStep ts c).max := by
  simp only [comboTimeoutStep]
  rw [if_pos h1, if_pos h2]
  constructor
  · rfl
  · show c.current ≤ if c.current > c.max then c.current else c.max
    split
    · exact le_refl _
    · omega

theorem applyShockwaveGo_meter_bounds (x y radius scale : ℚ) (sq : ℚ → ℚ)
    (es : List Enemy) :
    ∀ (acc : List Enemy) (st : GameState), MeterInRange st →
      MeterInRange (applyShockwaveGo x y radius scale sq es acc st).2 := by
  induction es with
  | nil => intro acc st h; exact h
  | cons e rest ih =>
    intro acc st h
    simp only [applyShockwaveGo]
    split
    · split
      · exact ih _ _ (add_combo_meter_bounds _ h)
      · exact ih _ _ h
    · exact ih _ _ h

theorem apply_shockwave_damage_meter_bounds (x y radius scale : ℚ) (sq : ℚ → ℚ)
    (st : GameState) (h : MeterInRange st) :
    MeterInRange (apply_shockwave_damage x y radius scale sq st) := by
  unfold apply_shockwave_damage
  exact applyShockwaveGo_meter_bounds x y radius scale sq st.enemies [] st h

theorem foldl_meter_bounds (g : GameState → ℚ → GameState)
    (hg : ∀ st p, MeterInRange st → MeterInRange (g st p)) (pts : List ℚ) :
    ∀ st, MeterInRange st → MeterInRange (pts.foldl g st) := by
  induction pts with
  | nil => intro st h; exact h
  | cons p rest ih => intro st h; exact ih _ (hg st p h)

theorem finisherLockOnTransition_meter (st : GameState) (f : FinisherState) :
    MeterInRange (finisherLockOnTransition st f) := by
  constructor
  · exact le_refl 0
  · show (0 : ℚ) ≤ 100
    norm_num

theorem finisherPreImpactTransition_meter (scale : ℚ) (st : GameState)
    (f : FinisherState) (h : 0 ≤ f.meter ∧ f.meter ≤ 100) :
    MeterInRange (finisherPreImpactTransition scale st f) := by
  simp only [finisherPreImpactTransition, MeterInRange]
  split
  · split
    · exact h
    · exact h
  · exact h

theorem finisherImpactStep_meter (scale : ℚ) (sq : ℚ → ℚ) (st : GameState)
    (f : FinisherState) (h : 0 ≤ f.meter ∧ f.meter ≤ 100) :
    MeterInRange (finisherImpactStep scale sq st f) := by
  simp only [finisherImpactStep]
  have hfold : MeterInRange (([3/10, 6/10] : List ℚ).foldl
      (fun acc dmg_point =>
        if dmg_point ≤ 1 - ((f.execution_timer : ℚ) / ((Cfg.finisher_impact_time : ℤ) : ℚ)) ∧
            1 - ((f.execution_timer : ℚ) / ((Cfg.finisher_impact_time : ℤ) : ℚ)) <
              dmg_point + 1/50 then
          apply_shockwave_damage acc.finisher.impact_x acc.finisher.impact_y
            acc.finisher.shockwave_radius scale sq acc
        else acc)
      { st with finisher := { f with
          shockwave_radius := 10 * scale + (Cfg.finisher_shockwave_radius * scale -
            10 * scale) * (1 - ((f.execution_timer : ℚ) /
              ((Cfg.finisher_impact_time : ℤ) : ℚ))) } }) := by
    refine foldl_meter_bounds _ ?_ _ _ h
    intro stx p hx
    split
    · exact apply_shockwave_damage_meter_bounds _ _ _ _ _ _ hx
    · exact hx
  split
  · exact hfold
  · exact hfold

theorem finisherPostImpactCleanup_meter (st : GameState) (f : FinisherState)
    (h : 0 ≤ f.meter ∧ f.meter ≤ 100) :
    MeterInRange (finisherPostImpactCleanup st f) := h

theorem finisherLockOnProgressUpdate_meter (st1 : GameState) (h : MeterInRange st1) :
    MeterInRange (finisherLockOnProgressUpdate st1) := by
  simp only [finisherLockOnProgressUpdate]
  split
  · exact h
  · exact h

theorem update_finisher_meter_bounds (scale : ℚ) (sq : ℚ → ℚ) (st : GameState)
    (h : MeterInRange st) : MeterInRange (update_finisher scale sq st) := by
  obtain ⟨h0, h1⟩ := h
  simp only [update_finisher]
  split
  · exact ⟨h0, h1⟩
  · apply finisherLockOnProgressUpdate_meter
    split
    · split
      · exact finisherLockOnTransition_meter _ _
      · split
        · exact finisherPreImpactTransition_meter _ _ _ ⟨h0, h1⟩
        · split
          · exact finisherImpactStep_meter _ _ _ _ ⟨h0, h1⟩
          · split
            · exact finisherPostImpactCleanup_meter _ _ ⟨h0, h1⟩
            · exact ⟨h0, h1⟩
    · exact ⟨h0, h1⟩

theorem update_finisher_meter_decay_bounds (st : GameState)
    (hts : 0 ≤ st.time_scale) (h : MeterInRange st) :
    MeterInRange (update_finisher_meter st) := by
  obtain ⟨h0, h1⟩ := h
  have hle : st.finisher.meter - 2 / (Cfg.fps : ℚ) * st.time_scale ≤ 100 := by
    have hd : 0 ≤ 2 / (Cfg.fps : ℚ) * st.time_scale := by
      apply mul_nonneg _ hts
      norm_num [Cfg.fps]
    linarith
  simp only [update_finisher_meter]
  split
  · constructor
    · split
      · exact le_max_left 0 _
      · exact le_max_left 0 _
    · split
      · exact max_le (by norm_num) hle
      · exact max_le (by norm_num) hle
  · exact ⟨h0, h1⟩

theorem start_finisher_meter_unchanged (scale : ℚ) (atan2O : ℚ → ℚ → ℚ)
    (sinCosO : ℚ → ℚ × ℚ) (target : Enemy) (st : GameState) :
    (start_finisher_execution scale atan2O sinCosO target st).finisher.meter =
      st.finisher.meter ∧
    (start_finisher_execution scale atan2O sinCosO target st).finisher.ready =
      st.finisher.ready := by
  constructor <;> rfl

/-! ## C4: finisher meter invariants -/

/-- **C4**: the finisher meter stays in [0,100] under every operation
that touches it; kills apply the tiered fill rate saturating at 100 and
set `ready` exactly on saturation; a broken combo (current = 0) with a
positive meter decays it toward 0 and dropping below 100 clears `ready`;
triggering the finisher leaves meter/ready untouched while the
LOCK_ON→PRE_IMPACT transition of `update_finisher` resets meter to 0 and
`ready` to false. -/
theorem C4_finisher_meter_invariants :
    (∀ st, MeterInRange st → MeterInRange (add_combo st)) ∧
    (∀ st, 0 ≤ st.time_scale → MeterInRange st →
      MeterInRange (update_finisher_meter st)) ∧
    (∀ st scale sq, MeterInRange st → MeterInRange (update_finisher scale sq st)) ∧
    (∀ st scale atan2O sinCosO target, MeterInRange st →
      MeterInRange (start_finisher_execution scale atan2O sinCosO target st)) ∧
    (∀ st : GameState, st.finisher.ready = false →
      (add_combo st).finisher.meter =
        min 100 (st.finisher.meter + comboFillRate (st.combo.current + 1)) ∧
      ((add_combo st).finisher.ready = true ↔
        100 ≤ (add_combo st).finisher.meter)) ∧
    (∀ st : GameState, st.combo.current = 0 → st.finisher.meter > 0 →
      (update_finisher_meter st).finisher.meter =
        max 0 (st.finisher.meter - 2 / (Cfg.fps : ℚ) * st.time_scale) ∧
      ((update_finisher_meter st).finisher.meter < 100 →
        (update_finisher_meter st).finisher.ready = false)) ∧
    (∀ st scale atan2O sinCosO target,
      (start_finisher_execution scale atan2O sinCosO target st).finisher.meter =
        st.finisher.meter ∧
      (start_finisher_execution scale atan2O sinCosO target st).finisher.ready =
        st.finisher.ready) ∧
    (∀ (st : GameState) (scale : ℚ) (sq : ℚ → ℚ),
      st.finisher.executing = true →
      st.finisher.phase = FinisherPhase.lock_on →
      st.finisher.execution_timer ≤ 1 →
      (update_finisher scale sq st).finisher.meter = 0 ∧
      (update_finisher scale sq st).finisher.ready = false ∧
      (update_finisher scale sq st).finisher.phase = FinisherPhase.pre_impact) := by
  refine ⟨add_combo_meter_bounds, update_finisher_meter_decay_bounds,
    ?_, ?_, ?_, ?_, ?_, ?_⟩
  · intro st scale sq h
    exact update_finisher_meter_bounds scale sq st h
  · intro st scale atan2O sinCosO target h
    exact h
  · intro st hr
    have hcur := comboAfterKill_current st.combo
    constructor
    · show (finisherMeterFill (comboAfterKill st.combo).current st.finisher).meter = _
      rw [hcur]
      simp only [finisherMeterFill]
      rw [if_pos hr]
    · show (finisherMeterFill (comboAfterKill st.combo).current st.finisher).ready = true ↔
        100 ≤ (finisherMeterFill (comboAfterKill st.combo).current st.finisher).meter
      rw [hcur]
      simp only [finisherMeterFill]
      rw [if_pos hr, hr]
      show (if _ ≥ _ then true else false) = true ↔ _
      split
      · next hge => simpa using hge
      · next hlt => simpa using hlt
  · intro st hc hm
    simp only [update_finisher_meter]
    rw [if_pos ⟨hc, hm⟩]
    by_cases hlt : max (0:ℚ) (st.finisher.meter - 2 / (Cfg.fps : ℚ) * st.time_scale) < 100
    · rw [if_pos hlt]
      exact ⟨rfl, fun _ => rfl⟩
    · rw [if_neg hlt]
      exact ⟨rfl, fun hlow => absurd hlow hlt⟩
  · intro st scale atan2O sinCosO target
    exact ⟨rfl, rfl⟩
  · intro st scale sq hexec hphase ht
    have hexec' : ¬ st.finisher.executing = false := by simp [hexec]
    have ht0 : st.finisher.execution_timer - 1 ≤ 0 := by omega
    simp only [update_finisher]
    rw [if_neg hexec']
    simp [ht0, hphase, finisherLockOnTransition, finisherLockOnProgressUpdate]

/-- Combo/finisher state used to instantiate the hypothesised parts of
C4 and C9. -/
def comboZero : ComboState := { current := 0, timer := 0, kills := 0, max := 0, pulse := 0 }

/-- An inert ship for concrete witnesses. -/
def shipIdle : ShipState :=
  { x := 0, y := 0, angle := 0, vel_x := 0, vel_y := 0, invulnerable := 0,
    rapid_fire := 0, triple_shot := 0, shield_active := 0, powerup_flash := 0,
    respawning := 0, aura_pulse := 0, dashing := 0, dash_trail := [] }

/-- A finisher mid-LOCK_ON with a half-filled meter, one frame before
the PRE_IMPACT transition. -/
def finC4 : FinisherState :=
  { meter := 50, ready := false, executing := true,
    phase := FinisherPhase.lock_on, execution_timer := 1, target := none,
    shockwave_radius := 0, lock_on_progress := 0, impact_x := 0, impact_y := 0 }

/-- A state mid-LOCK_ON with a half-filled meter, one frame before the
PRE_IMPACT transition. -/
def stC4 : GameState :=
  { score := 0, high_score := 0, lives := 3, game_over := false, paused := false,
    show_upgrade_menu := false, untouchable_level := true, pause_debounce := 0,
    frame_count := 0, time_scale := 1/2, dash_cooldown := 0,
    combo := comboZero, finisher := finC4,
    ship := shipIdle, enemies := [], boss_kills := 0 }

/-- Witness for C4 at the concrete state `stC4`. -/
theorem C4_finisher_meter_invariants_witness :
    MeterInRange (add_combo stC4) ∧
    (update_finisher 1 (fun q => q) stC4).finisher.meter = 0 ∧
    (update_finisher 1 (fun q => q) stC4).finisher.phase = FinisherPhase.pre_impact := by
  obtain ⟨h1, _, _, _, _, _, _, h8⟩ := C4_finisher_meter_invariants
  have hm : MeterInRange stC4 :=
    ⟨by with_unfolding_all decide, by with_unfolding_all decide⟩
  obtain ⟨ha, _, hc⟩ := h8 stC4 1 (fun q => q) rfl rfl (by with_unfolding_all decide)
  exact ⟨h1 stC4 hm, ha, hc⟩

/-! ## C1: the IMPACT-phase shockwave is dead code -/

/-- The enemy executed at the PRE_IMPACT→IMPACT transition (already
removed from `enemies`, still referenced by `finisher.target`, as in the
source). -/
def targetC1 : Enemy :=
  { x := 0, y := 0, vx := 0, vy := 0, angle := 0, fire_cooldown := 90,
    health := 3, max_health := 3, ai_type := EnemyAIType.hunter,
    orbit_angle := 0, radius := 12, hit_flash := 0 }

/-- A bystander enemy 50 units from the impact point, with full health. -/
def enemyC1 : Enemy := { targetC1 with x := 50 }

/-- The finisher state exactly at the start of the IMPACT phase (as left
by the PRE_IMPACT transition with the target present). -/
def finC1 : FinisherState :=
  { meter := 0, ready := false, executing := true,
    phase := FinisherPhase.impact, execution_timer := Cfg.finisher_impact_time,
    target := some targetC1, shockwave_radius := 10,
    lock_on_progress := 1, impact_x := 0, impact_y := 0 }

/-- The game state at the start of the IMPACT phase, with `enemyC1`
standing 50 units from the impact centre. -/
def stC1 : GameState :=
  { score := 500, high_score := 0, lives := 3, game_over := false, paused := false,
    show_upgrade_menu := false, untouchable_level := true, pause_debounce := 0,
    frame_count := 0, time_scale := Cfg.finisher_time_scale, dash_cooldown := 0,
    combo := comboZero, finisher := finC1,
    ship := shipIdle, enemies := [enemyC1], boss_kills := 0 }

/-- **C1** (code bug): running the finisher IMPACT phase from its full
60-frame timer, with an enemy 50 units from the impact centre — well
inside the shockwave radius the claim prescribes at the 0.3 checkpoint
(67 units) — the shockwave radius never animates (still at its 10-unit
start value after 59 frames), `apply_shockwave_damage` never fires (the
enemy emerges with its full 3 health, untouched), and only on the final
frame does the phase move to POST_IMPACT with `time_scale` restored to
1.0.  The IMPACT branch of `update_finisher` sits under the
`execution_timer <= 0` test, so it runs exactly once, at progress 1.0,
after both damage checkpoints (0.3 and 0.6) have been skipped. -/
theorem C1_impact_shockwave_dead_code :
    (((update_finisher 1 (fun q => q))^[59]) stC1).finisher.shockwave_radius = 10 ∧
    (((update_finisher 1 (fun q => q))^[59]) stC1).finisher.phase = FinisherPhase.impact ∧
    (((update_finisher 1 (fun q => q))^[59]) stC1).enemies = [enemyC1] ∧
    (((update_finisher 1 (fun q => q))^[60]) stC1).enemies = [enemyC1] ∧
    enemyC1.health = 3 ∧
    (((update_finisher 1 (fun q => q))^[60]) stC1).finisher.phase =
      FinisherPhase.post_impact ∧
    (((update_finisher 1 (fun q => q))^[60]) stC1).time_scale = 1 ∧
    (((update_finisher 1 (fun q => q))^[60]) stC1).finisher.shockwave_radius = 200 ∧
    10 * (1 : ℚ) + (Cfg.finisher_shockwave_radius * 1 - 10 * 1) * (3/10) = 67 ∧
    (enemyC1.x - stC1.finisher.impact_x) * (enemyC1.x - stC1.finisher.impact_x) +
      (enemyC1.y - stC1.finisher.impact_y) * (enemyC1.y - stC1.finisher.impact_y)
        < 67 * 67 := by
  set_option maxRecDepth 100000 in with_unfolding_all decide

/-! ## C9: combo streak bookkeeping -/

/-- **C9**: every kill bumps the combo counter by exactly 1 and resets
the timeout to `Cfg.combo_timeout`; when the running timeout reaches 0
with no intervening kill, `update_combo_system` first folds `current`
into `max` and then clears `current`, so afterwards `max` is at least the
previous `current`. -/
theorem C9_combo_streak (st : GameState) :
    ((add_combo st).combo.current = st.combo.current + 1 ∧
     (add_combo st).combo.timer = Cfg.combo_timeout) ∧
    (st.combo.timer > 0 → update_timer st.time_scale st.combo.timer 1 ≤ 0 →
      (update_combo_system st).combo.current = 0 ∧
      st.combo.current ≤ (update_combo_system st).combo.max) := by
  constructor
  · constructor
    · show (comboPulseAfterKill (comboAfterKill st.combo)).current = st.combo.current + 1
      rw [comboPulseAfterKill_current, comboAfterKill_current]
    · show (comboPulseAfterKill (comboAfterKill st.combo)).timer = Cfg.combo_timeout
      rw [comboPulseAfterKill_timer, comboAfterKill_timer]
  · intro htimer hzero
    constructor
    · show (comboPulseFade st.time_scale (comboTimeoutStep st.time_scale st.combo)).current = 0
      rw [comboPulseFade_current]
      exact (comboTimeoutStep_timeout _ _ htimer hzero).1
    · show st.combo.current ≤
        (comboPulseFade st.time_scale (comboTimeoutStep st.time_scale st.combo)).max
      rw [comboPulseFade_max]
      exact (comboTimeoutStep_timeout _ _ htimer hzero).2

/-- C9 witness state: a live 7-kill streak whose timeout expires on this
frame. -/
def stC9 : GameState :=
  { stC4 with
      time_scale := 1
      combo := { current := 7, timer := 1, kills := 7, max := 3, pulse := 0 } }

/-- Witness for C9 at the concrete state `stC9`. -/
theorem C9_combo_streak_witness :
    (update_combo_system stC9).combo.current = 0 ∧
    (7 : ℕ) ≤ (update_combo_system stC9).combo.max := by
  have h := (C9_combo_streak stC9).2
    (by with_unfolding_all decide) (by with_unfolding_all decide)
  exact h

/-! ## C2: enemy shooting (src/main.py lines 2720-2749) -/

/-- `update_enemy_shooting(enemy)`: count the fire cooldown down; when it
reaches 0, fire only if the ship distance lies strictly inside the
min/max band, and only then reset the cooldown to the base rate plus the
random jitter.  Returns the updated enemy and `some aim_angle` when a
bullet was fired (`shoot_bullet` call), `none` otherwise.  `aim_rnd` is
the `random.uniform(-inaccuracy, inaccuracy)` draw and `jitter_rnd` the
`random.randint(-variance, variance)` draw; `sq` is the oracle for
`math.sqrt`. -/
def update_enemy_shooting (time_scale scale : ℚ) (ship : Pos) (sq : ℚ → ℚ)
    (aim_rnd jitter_rnd : ℚ) (e : Enemy) : Enemy × Option ℚ :=
  let e1 : Enemy := { e with fire_cooldown := update_timer time_scale e.fire_cooldown 1 }
  if e1.fire_cooldown ≤ 0 then
    let dx := ship.x - e1.x
    let dy := ship.y - e1.y
    let distance := sq (dx * dx + dy * dy)
    let min_fire_distance := Cfg.enemy_min_fire_distance * scale
    let max_fire_distance := Cfg.enemy_max_fire_distance * scale
    if min_fire_distance < distance ∧ distance < max_fire_distance then
      let aim_angle := e1.angle + aim_rnd
      ({ e1 with fire_cooldown := Cfg.enemy_fire_rate + jitter_rnd }, some aim_angle)
    else (e1, none)
  else (e1, none)

theorem update_timer_nonneg (time_scale value decrement : ℚ) :
    0 ≤ update_timer time_scale value decrement := by
  unfold update_timer
  split
  · exact le_max_left 0 _
  · exact le_refl 0

theorem update_enemy_shooting_pos (time_scale scale : ℚ) (ship : Pos) (sq : ℚ → ℚ)
    (aim_rnd jitter_rnd : ℚ) (e : Enemy) :
    (update_enemy_shooting time_scale scale ship sq aim_rnd jitter_rnd e).1.x = e.x ∧
    (update_enemy_shooting time_scale scale ship sq aim_rnd jitter_rnd e).1.y = e.y := by
  simp only [update_enemy_shooting]
  split
  · split
    · exact ⟨rfl, rfl⟩
    · exact ⟨rfl, rfl⟩
  · exact ⟨rfl, rfl⟩

/-- **C2** (amended): when the cooldown reaches 0 — (i) if the ship's
distance is strictly inside the (min, max) firing band the enemy fires at
its facing angle plus the random inaccuracy and the cooldown is reset to
the base rate plus the random jitter; (ii) if the ship is out of band the
enemy does not fire and the cooldown is NOT rerolled: it stays at 0 (the
in-band test is simply re-run every frame); (iii) an enemy whose distance
to the ship is at least the maximum fire distance never fires, no matter
how many frames elapse. -/
theorem C2_enemy_shooting (time_scale scale : ℚ) (ship : Pos) (sq : ℚ → ℚ)
    (aim_rnd jitter_rnd : ℚ) (e : Enemy) :
    (update_timer time_scale e.fire_cooldown 1 ≤ 0 →
      Cfg.enemy_min_fire_distance * scale <
          sq ((ship.x - e.x) * (ship.x - e.x) + (ship.y - e.y) * (ship.y - e.y)) →
      sq ((ship.x - e.x) * (ship.x - e.x) + (ship.y - e.y) * (ship.y - e.y)) <
          Cfg.enemy_max_fire_distance * scale →
      (update_enemy_shooting time_scale scale ship sq aim_rnd jitter_rnd e).2 =
        some (e.angle + aim_rnd) ∧
      (update_enemy_shooting time_scale scale ship sq aim_rnd jitter_rnd e).1.fire_cooldown =
        Cfg.enemy_fire_rate + jitter_rnd) ∧
    (update_timer time_scale e.fire_cooldown 1 ≤ 0 →
      ¬ (Cfg.enemy_min_fire_distance * scale <
            sq ((ship.x - e.x) * (ship.x - e.x) + (ship.y - e.y) * (ship.y - e.y)) ∧
          sq ((ship.x - e.x) * (ship.x - e.x) + (ship.y - e.y) * (ship.y - e.y)) <
            Cfg.enemy_max_fire_distance * scale) →
      (update_enemy_shooting time_scale scale ship sq aim_rnd jitter_rnd e).2 = none ∧
      (update_enemy_shooting time_scale scale ship sq aim_rnd jitter_rnd e).1.fire_cooldown
        = 0) ∧
    (Cfg.enemy_max_fire_distance * scale ≤
        sq ((ship.x - e.x) * (ship.x - e.x) + (ship.y - e.y) * (ship.y - e.y)) →
      ∀ n : ℕ,
        (update_enemy_shooting time_scale scale ship sq aim_rnd jitter_rnd
          (((fun en => (update_enemy_shooting time_scale scale ship sq aim_rnd
            jitter_rnd en).1)^[n]) e)).2 = none) := by
  refine ⟨?_, ?_, ?_⟩
  · intro hcd hmin hmax
    simp only [update_enemy_shooting]
    rw [if_pos hcd, if_pos ⟨hmin, hmax⟩]
    exact ⟨rfl, rfl⟩
  · intro hcd hband
    have hz : update_timer time_scale e.fire_cooldown 1 = 0 :=
      le_antisymm hcd (update_timer_nonneg _ _ _)
    simp only [update_enemy_shooting]
    rw [if_pos hcd, if_neg hband]
    exact ⟨rfl, hz⟩
  · intro hfar n
    -- the iterated update never moves the enemy, so the distance test is
    -- the same every frame and the band test always fails on the right
    have hpos : ∀ m : ℕ,
        (((fun en => (update_enemy_shooting time_scale scale ship sq aim_rnd
          jitter_rnd en).1)^[m]) e).x = e.x ∧
        (((fun en => (update_enemy_shooting time_scale scale ship sq aim_rnd
          jitter_rnd en).1)^[m]) e).y = e.y := by
      intro m
      induction m with
      | zero => exact ⟨rfl, rfl⟩
      | succ k ih =>
        rw [Function.iterate_succ_apply']
        obtain ⟨ihx, ihy⟩ := ih
        obtain ⟨hx, hy⟩ := update_enemy_shooting_pos time_scale scale ship sq aim_rnd
          jitter_rnd (((fun en => (update_enemy_shooting time_scale scale ship sq aim_rnd
            jitter_rnd en).1)^[k]) e)
        exact ⟨by rw [hx, ihx], by rw [hy, ihy]⟩
    obtain ⟨hx, hy⟩ := hpos n
    generalize hgen : (((fun en => (update_enemy_shooting time_scale scale ship sq aim_rnd
      jitter_rnd en).1)^[n]) e) = en at hx hy ⊢
    simp only [update_enemy_shooting]
    rw [hx, hy]
    split
    · split
      · next hband =>
          exact absurd hband.2 (not_lt.mpr hfar)
      · rfl
    · rfl

/-- A concrete enemy whose cooldown has just reached 0. -/
def enemyC2 : Enemy :=
  { x := 0, y := 0, vx := 0, vy := 0, angle := 0, fire_cooldown := 0,
    health := 3, max_health := 3, ai_type := EnemyAIType.hunter,
    orbit_angle := 0, radius := 12, hit_flash := 0 }

/-- **C2** (counterexample): the enemy at distance 300 from the ship
(beyond the 250-unit maximum band) with its cooldown at 0 does not fire —
but its cooldown is NOT rerolled either: it stays at 0, while a reroll
would have set it to `enemy_fire_rate ± enemy_fire_rate_variance`, which
is at least 80 > 0.  (`fun _ => 300` is the exact square root of the
squared distance 90000.) -/
theorem C2_counterexample :
    (update_enemy_shooting 1 1 { x := 300, y := 0 } (fun _ => 300) 0 0 enemyC2).2
      = none ∧
    (update_enemy_shooting 1 1 { x := 300, y := 0 } (fun _ => 300) 0 0
      enemyC2).1.fire_cooldown = 0 ∧
    (0 : ℚ) < Cfg.enemy_fire_rate - Cfg.enemy_fire_rate_variance := by
  refine ⟨?_, ?_, by with_unfolding_all decide⟩ <;> with_unfolding_all decide

/-- Witness for C2: an in-band enemy at distance 100 fires and rerolls,
and the distance-300 enemy never fires over any number of frames. -/
theorem C2_enemy_shooting_witness :
    (update_enemy_shooting 1 1 { x := 100, y := 0 } (fun _ => 100) 2 (-3) enemyC2).2
      = some 2 ∧
    (update_enemy_shooting 1 1 { x := 100, y := 0 } (fun _ => 100) 2 (-3)
      enemyC2).1.fire_cooldown = 87 ∧
    (update_enemy_shooting 1 1 { x := 300, y := 0 } (fun _ => 300) 0 0
      (((fun en => (update_enemy_shooting 1 1 { x := 300, y := 0 } (fun _ => 300) 0 0
        en).1)^[5]) enemyC2)).2 = none := by
  obtain ⟨hin, _, _⟩ := C2_enemy_shooting 1 1 { x := 100, y := 0 } (fun _ => 100) 2 (-3)
    enemyC2
  obtain ⟨hfire, hreset⟩ := hin (by with_unfolding_all decide)
    (by with_unfolding_all decide) (by with_unfolding_all decide)
  obtain ⟨_, _, hnever⟩ := C2_enemy_shooting 1 1 { x := 300, y := 0 } (fun _ => 300) 0 0
    enemyC2
  refine ⟨?_, ?_, hnever (by with_unfolding_all decide) 5⟩
  · simpa [enemyC2] using hfire
  · rw [hreset]
    with_unfolding_all decide

/-! ## C6: ship damage and the game-over gate -/

/-- `reset_ship` (src/main.py lines 2604-2627); `width`/`height` are the
screen dimensions, `g_screen_width // 2` is integer division. -/
def reset_ship (width height : ℤ) (st : GameState) : GameState :=
  { st with ship := { st.ship with
      x := ((width / 2 : ℤ) : ℚ)
      y := ((height / 2 : ℤ) : ℚ)
      angle := 0
      vel_x := 0
      vel_y := 0
      invulnerable := Cfg.ship_invulnerability_time
      powerup_flash := 0
      respawning := Cfg.ship_respawn_duration
      aura_pulse := 0
      dashing := 0
      dash_trail := [] } }

/-- `handle_ship_damage` (src/main.py lines 2268-2307): shield absorbs
the hit (consumed, no life lost, returns False); otherwise a life is
lost; at 0 lives the game-over flag is raised, else the ship respawns.
Returns (was_fatal, new state). -/
def handle_ship_damage (width height : ℤ) (st : GameState) : Bool × GameState :=
  if st.ship.shield_active > 0 then
    (false, { st with ship := { st.ship with shield_active := 0 } })
  else
    let st1 := { st with lives := st.lives - 1, untouchable_level := false }
    if st1.lives ≤ 0 then
      (true, { st1 with game_over := true })
    else
      (true, reset_ship width height st1)

/-- The state-relevant shape of one `run_game_loop` iteration
(src/main.py lines 4690-4752): the pause debounce and frame counter are
always maintained, while the whole gameplay update (`handle_dash_input`,
shooting, `handle_input`, `update_game_state` — abstracted as `upd`) runs
only when the game is not over, not paused and not in the upgrade
menu. -/
def game_loop_iteration (upd : GameState → GameState) (st : GameState) : GameState :=
  let st1 := if st.pause_debounce > 0 then
    { st with pause_debounce := st.pause_debounce - 1 } else st
  let st2 := if st1.game_over = false ∧ st1.paused = false ∧
      st1.show_upgrade_menu = false then upd st1 else st1
  { st2 with frame_count := st2.frame_count + 1 }

/-- **C6**: with exactly 1 life and no shield a hit is fatal — lives
drop to 0 and `game_over` is raised — and once `game_over` holds, any
further loop iterations leave `lives` (and the flag) untouched no matter
what the gated gameplay update would do; with an active shield the
shield is consumed and no life is lost. -/
theorem C6_fatal_hit_and_game_over_gate :
    (∀ (st : GameState) (width height : ℤ), st.lives = 1 →
      st.ship.shield_active = 0 →
      (handle_ship_damage width height st).1 = true ∧
      (handle_ship_damage width height st).2.lives = 0 ∧
      (handle_ship_damage width height st).2.game_over = true) ∧
    (∀ (st : GameState) (upd : GameState → GameState) (n : ℕ),
      st.game_over = true →
      (((game_loop_iteration upd)^[n]) st).lives = st.lives ∧
      (((game_loop_iteration upd)^[n]) st).game_over = true) ∧
    (∀ (st : GameState) (width height : ℤ), st.ship.shield_active > 0 →
      (handle_ship_damage width height st).1 = false ∧
      (handle_ship_damage width height st).2.ship.shield_active = 0 ∧
      (handle_ship_damage width height st).2.lives = st.lives) := by
  have hstep : ∀ (st : GameState) (upd : GameState → GameState),
      st.game_over = true →
      (game_loop_iteration upd st).lives = st.lives ∧
      (game_loop_iteration upd st).game_over = true := by
    intro st upd hgo
    simp only [game_loop_iteration]
    split
    · rw [if_neg (by simp [hgo])]
      exact ⟨rfl, hgo⟩
    · rw [if_neg (by simp [hgo])]
      exact ⟨rfl, hgo⟩
  refine ⟨?_, ?_, ?_⟩
  · intro st width height hl hs
    have hns : ¬ st.ship.shield_active > 0 := by rw [hs]; exact lt_irrefl 0
    simp only [handle_ship_damage]
    rw [if_neg hns]
    rw [if_pos (show st.lives - 1 ≤ 0 by omega)]
    exact ⟨rfl, by show st.lives - 1 = 0; omega, rfl⟩
  · intro st upd n hgo
    induction n with
    | zero => exact ⟨rfl, hgo⟩
    | succ k ih =>
      rw [Function.iterate_succ_apply']
      obtain ⟨ihl, ihg⟩ := ih
      obtain ⟨hl, hg⟩ := hstep _ upd ihg
      exact ⟨by rw [hl, ihl], hg⟩
  · intro st width height hs
    simp only [handle_ship_damage]
    rw [if_pos hs]
    exact ⟨rfl, rfl, rfl⟩

/-- Witness for C6: a one-life, shieldless ship dies to a hit and the
game-over gate freezes `lives` for the next 3 frames. -/
theorem C6_fatal_hit_witness :
    (handle_ship_damage 800 600 { stC4 with lives := 1 }).2.lives = 0 ∧
    (handle_ship_damage 800 600 { stC4 with lives := 1 }).2.game_over = true ∧
    (((game_loop_iteration id)^[3])
      (handle_ship_damage 800 600 { stC4 with lives := 1 }).2).lives = 0 := by
  obtain ⟨hfatal, hgate, _⟩ := C6_fatal_hit_and_game_over_gate
  obtain ⟨_, hl, hg⟩ := hfatal { stC4 with lives := 1 } 800 600 rfl rfl
  obtain ⟨hl3, _⟩ := hgate (handle_ship_damage 800 600 { stC4 with lives := 1 }).2 id 3 hg
  exact ⟨hl, hg, by rw [hl3, hl]⟩

/-! ## C5: persistence round-trip (src/progression_system.py) -/

/-- The upgrade ids of `Cfg.upgrades`, in dict insertion order. -/
def upgradeIds : List String := ["damage", "fire_rate", "max_speed", "dash_cooldown"]

/-- `Cfg.upgrades[u]["max_level"]`. -/
def upgradeMaxLevel (u : String) : ℤ :=
  if u = "damage" then 5
  else if u = "fire_rate" then 5
  else if u = "max_speed" then 5
  else if u = "dash_cooldown" then 3
  else 0

/-- The achievement ids of `Cfg.achievements`. -/
def achievementIds : List String :=
  ["first_blood", "combo_5", "combo_10", "survivor", "boss_slayer",
   "untouchable", "speed_demon", "crystal_hoarder"]

/-- `ProgressionSystem.get_default_upgrade_levels`. -/
def default_upgrade_levels : List (String × ℤ) := upgradeIds.map (fun k => (k, 0))

/-- The flat persisted record (`save_data` of `save_game_state`);
`achievements_unlocked` as a list, `upgrade_levels` as an
insertion-ordered association list (a JSON object). -/
structure SaveData where
  high_score : ℤ
  lifetime_crystals : ℤ
  achievements_unlocked : List String
  upgrade_levels : List (String × ℤ)
  boss_kills : ℤ
deriving DecidableEq, Repr

/-- The persistent slice of `ctx.game_state`.  The Python `set` of
achievement ids is modeled as an insertion-ordered duplicate-free list,
so `list(s)` is the identity and set construction is first-occurrence
dedup. -/
structure PersistState where
  high_score : ℤ
  lifetime_crystals : ℤ
  achievements_unlocked : List String
  upgrade_levels : List (String × ℤ)
  boss_kills : ℤ
deriving DecidableEq, Repr

/-- Python `dict[k] = v`: update in place when the key exists (keeping
its position), append otherwise. -/
def assocSet : List (String × ℤ) → String → ℤ → List (String × ℤ)
  | [], k, v => [(k, v)]
  | (k', v') :: rest, k, v =>
    if k' = k then (k', v) :: rest else (k', v') :: assocSet rest k v

/-- Python `set(...)` built from a sequence: keep the first occurrence of
each element, in encounter order. -/
def setOfList : List String → List String
  | [] => []
  | a :: rest => a :: (setOfList rest).filter (fun b => b != a)

/-- `save_game_state` (src/progression_system.py lines 89-115): a plain
field copy of the persistent slice (`list(set)` is the identity in this
model); the file write itself is external I/O. -/
def save_game_state (s : PersistState) : SaveData :=
  { high_score := s.high_score
    lifetime_crystals := s.lifetime_crystals
    achievements_unlocked := s.achievements_unlocked
    upgrade_levels := s.upgrade_levels
    boss_kills := s.boss_kills }

/-- `load_game_state` (src/progression_system.py lines 117-183) on data
that passed `validate_save_data` (well-typedness is enforced by the
embedding's types; file-missing / JSON-error fallbacks are external
I/O): clamp the numeric fields at 0, keep only known achievement ids,
and rebuild the upgrade dict from the defaults with each loaded level
clamped into `[0, max_level]`. -/
def load_game_state (sd : SaveData) : PersistState :=
  { high_score := max 0 sd.high_score
    lifetime_crystals := max 0 sd.lifetime_crystals
    achievements_unlocked :=
      setOfList (sd.achievements_unlocked.filter (fun a => decide (a ∈ achievementIds)))
    upgrade_levels := sd.upgrade_levels.foldl
      (fun acc kv =>
        if kv.1 ∈ upgradeIds then
          assocSet acc kv.1 (max 0 (min kv.2 (upgradeMaxLevel kv.1)))
        else acc)
      default_upgrade_levels
    boss_kills := max 0 sd.boss_kills }

/-- A persistent state is canonical when its numeric fields are
non-negative, its achievements are known and duplicate-free, and its
upgrade dict is exactly the four known keys in canonical order with
levels inside `[0, max_level]`. -/
def ValidPersistState (s : PersistState) : Prop :=
  0 ≤ s.high_score ∧ 0 ≤ s.lifetime_crystals ∧ 0 ≤ s.boss_kills ∧
  s.achievements_unlocked.Nodup ∧
  (∀ a ∈ s.achievements_unlocked, a ∈ achievementIds) ∧
  ∃ l1 l2 l3 l4 : ℤ,
    s.upgrade_levels =
      [("damage", l1), ("fire_rate", l2), ("max_speed", l3), ("dash_cooldown", l4)] ∧
    0 ≤ l1 ∧ l1 ≤ 5 ∧ 0 ≤ l2 ∧ l2 ≤ 5 ∧ 0 ≤ l3 ∧ l3 ≤ 5 ∧ 0 ≤ l4 ∧ l4 ≤ 3

theorem setOfList_of_nodup : ∀ l : List String, l.Nodup → setOfList l = l
  | [], _ => rfl
  | a :: rest, h => by
    have h1 : a ∉ rest := (List.nodup_cons.mp h).1
    have h2 : rest.Nodup := (List.nodup_cons.mp h).2
    simp only [setOfList]
    rw [setOfList_of_nodup rest h2]
    congr 1
    refine List.filter_eq_self.mpr ?_
    intro b hb
    simp only [bne_iff_ne, ne_eq]
    exact fun e => h1 (e ▸ hb)

/-- **C5** (amended): on every canonical persisted state — non-negative
counters, known duplicate-free achievements, and the four upgrade levels
each within `[0, max]` — loading undoes saving exactly, hence
`save(load(save(s))) = save(s)`.  (Out-of-range states are normalised by
`load`'s clamping and do not round-trip; see the counterexample.) -/
theorem C5_roundtrip_on_valid (s : PersistState) (h : ValidPersistState s) :
    load_game_state (save_game_state s) = s ∧
    save_game_state (load_game_state (save_game_state s)) = save_game_state s := by
  obtain ⟨h1, h2, h3, hnd, hmem, l1, l2, l3, l4, hu, hb1, hb2, hb3, hb4, hb5, hb6,
    hb7, hb8⟩ := h
  have hload : load_game_state (save_game_state s) = s := by
    simp only [load_game_state, save_game_state]
    have hfilter : s.achievements_unlocked.filter (fun a => decide (a ∈ achievementIds))
        = s.achievements_unlocked := by
      refine List.filter_eq_self.mpr ?_
      intro b hb
      simpa using hmem b hb
    have hach : setOfList (s.achievements_unlocked.filter
        (fun a => decide (a ∈ achievementIds))) = s.achievements_unlocked := by
      rw [hfilter]
      exact setOfList_of_nodup _ hnd
    have hup : s.upgrade_levels.foldl
        (fun acc kv =>
          if kv.1 ∈ upgradeIds then
            assocSet acc kv.1 (max 0 (min kv.2 (upgradeMaxLevel kv.1)))
          else acc)
        default_upgrade_levels = s.upgrade_levels := by
      rw [hu]
      have e1 : max (0:ℤ) (min l1 (upgradeMaxLevel "damage")) = l1 := by
        simp only [upgradeMaxLevel]
        norm_num
        omega
      have e2 : max (0:ℤ) (min l2 (upgradeMaxLevel "fire_rate")) = l2 := by
        simp only [upgradeMaxLevel]
        norm_num
        omega
      have e3 : max (0:ℤ) (min l3 (upgradeMaxLevel "max_speed")) = l3 := by
        simp only [upgradeMaxLevel]
        norm_num
        omega
      have e4 : max (0:ℤ) (min l4 (upgradeMaxLevel "dash_cooldown")) = l4 := by
        simp only [upgradeMaxLevel]
        norm_num
        omega
      simp only [List.foldl_cons, List.foldl_nil]
      norm_num [upgradeIds, default_upgrade_levels, assocSet, e1, e2, e3, e4]
      have sA : ¬ ("damage" = "dash_cooldown") := by decide
      have sB : ¬ ("fire_rate" = "dash_cooldown") := by decide
      have sC : ¬ ("max_speed" = "dash_cooldown") := by decide
      rw [if_neg sA, if_neg sB, if_neg sC]
    rw [hach, hup]
    have hh1 : max (0:ℤ) s.high_score = s.high_score := max_eq_right h1
    have hh2 : max (0:ℤ) s.lifetime_crystals = s.lifetime_crystals := max_eq_right h2
    have hh3 : max (0:ℤ) s.boss_kills = s.boss_kills := max_eq_right h3
    rw [hh1, hh2, hh3]
  exact ⟨hload, by rw [hload]⟩

/-- A persisted record with a negative high score (clamped by `load`). -/
def badPersistC5 : PersistState :=
  { high_score := -1, lifetime_crystals := 0, achievements_unlocked := [],
    upgrade_levels := default_upgrade_levels, boss_kills := 0 }

/-- **C5** (counterexample): the claim quantifies over every persisted
record state, but a record with `high_score = -1` does not round-trip:
`load` clamps it to 0, so the second save differs from the first. -/
theorem C5_counterexample :
    save_game_state (load_game_state (save_game_state badPersistC5)) ≠
      save_game_state badPersistC5 ∧
    (load_game_state (save_game_state badPersistC5)).high_score = 0 ∧
    badPersistC5.high_score = -1 := by
  refine ⟨?_, ?_, ?_⟩ <;> with_unfolding_all decide

/-- Witness for C5 at a concrete mid-progress save. -/
theorem C5_roundtrip_witness :
    save_game_state (load_game_state (save_game_state
      { high_score := 4200, lifetime_crystals := 350,
        achievements_unlocked := ["first_blood", "combo_5"],
        upgrade_levels :=
          [("damage", 2), ("fire_rate", 0), ("max_speed", 5), ("dash_cooldown", 3)],
        boss_kills := 1 })) = save_game_state
      { high_score := 4200, lifetime_crystals := 350,
        achievements_unlocked := ["first_blood", "combo_5"],
        upgrade_levels :=
          [("damage", 2), ("fire_rate", 0), ("max_speed", 5), ("dash_cooldown", 3)],
        boss_kills := 1 } := by
  refine (C5_roundtrip_on_valid _ ?_).2
  refine ⟨by norm_num, by norm_num, by norm_num, ?_, ?_, 2, 0, 5, 3, rfl,
    by norm_num, by norm_num, by norm_num, by norm_num, by norm_num, by norm_num,
    by norm_num, by norm_num⟩
  · with_unfolding_all decide
  · intro a ha
    fin_cases ha <;> with_unfolding_all decide

/-! ## C7/C8: asteroids, bullets and the bullet-collision resolution -/

/-- `Asteroid` dataclass from src/data_structures.py. -/
structure Asteroid where
  x : ℚ
  y : ℚ
  vx : ℚ
  vy : ℚ
  size : ℤ
  radius : ℚ
  angle : ℚ
  spin : ℚ
  shape : List ℤ
  is_boss : Bool
  has_crystals : Bool
  health : ℤ
  max_health : ℤ
  hit_flash : ℚ
deriving DecidableEq, Repr

/-- An all-zero asteroid used as the `nthD` fallback. -/
def Asteroid.dflt : Asteroid :=
  { x := 0, y := 0, vx := 0, vy := 0, size := 1, radius := 0, angle := 0, spin := 0,
    shape := [], is_boss := false, has_crystals := false, health := 1,
    max_health := 1, hit_flash := 0 }

/-- An all-zero enemy used as the `nthD` fallback. -/
def Enemy.dflt : Enemy :=
  { x := 0, y := 0, vx := 0, vy := 0, angle := 0, fire_cooldown := 90, health := 3,
    max_health := 3, ai_type := EnemyAIType.hunter, orbit_angle := 0, radius := 12,
    hit_flash := 0 }

/-- `Bullet` dataclass from src/data_structures.py. -/
structure Bullet where
  x : ℚ
  y : ℚ
  vx : ℚ
  vy : ℚ
  life : ℚ
  trail : List (ℚ × ℚ)
deriving DecidableEq, Repr

/-- `distance_squared` (src/main.py lines 270-287). -/
def distance_squared (x1 y1 x2 y2 : ℚ) : ℚ :=
  (x1 - x2) * (x1 - x2) + (y1 - y2) * (y1 - y2)

/-- `check_collision` (src/main.py lines 290-302). -/
def check_collision (x1 y1 x2 y2 r1 r2 : ℚ) : Prop :=
  distance_squared x1 y1 x2 y2 < (r1 + r2) ^ 2

instance (x1 y1 x2 y2 r1 r2 : ℚ) : Decidable (check_collision x1 y1 x2 y2 r1 r2) := by
  unfold check_collision
  infer_instance

/-- Random draws used by `create_asteroid` (`get_sin_cos` of the random
movement angle, display angle, spin, shape offsets). -/
structure AsteroidRnd where
  sin_a : ℚ
  cos_a : ℚ
  angle2 : ℚ
  spin : ℚ
  shape : List ℤ

/-- `create_asteroid(x, y, size, is_boss, has_crystals)` with explicit
coordinates (the random edge-spawn branch for `x`/`y = None` is not
exercised by splitting, which always passes the parent position).
`Cfg.boss_rotation_multiplier = 0.3`. -/
def create_asteroid (scale : ℚ) (rnd : AsteroidRnd) (x y : ℚ) (size0 : ℤ)
    (is_boss has_crystals : Bool) : Asteroid :=
  let size := max Cfg.asteroid_min_size (min Cfg.asteroid_max_size size0)
  let speed_multiplier := Cfg.asteroid_speed_multiplier -
    (size : ℚ) * Cfg.asteroid_speed_size_adjustment
  let speed0 := Cfg.asteroid_base_speed * scale * speed_multiplier
  let speed := if is_boss then speed0 * Cfg.boss_speed_multiplier else speed0
  let radius0 := (size : ℚ) * 10 * scale
  let radius := if is_boss then radius0 * Cfg.boss_size_multiplier else radius0
  { x := x
    y := y
    vx := rnd.cos_a * speed
    vy := rnd.sin_a * speed
    size := size
    radius := radius
    angle := rnd.angle2
    spin := rnd.spin * (if is_boss then (3/10 : ℚ) else 1)
    shape := rnd.shape
    is_boss := is_boss
    has_crystals := has_crystals
    health := if is_boss then Cfg.boss_health else 1
    max_health := if is_boss then Cfg.boss_health else 1
    hit_flash := 0 }

/-- The random draws consumed by one `handle_asteroid_hit` call: the two
children's creation draws, the enemy-spawn roll
(`random.random() < Cfg.enemy_spawn_chance`), and the spawned enemy's
creation draws. -/
structure HitRnd where
  childRnd : ℕ → AsteroidRnd
  spawn_roll : Bool
  new_enemy : Enemy

/-- `Cfg.enemy_max_count`. -/
def enemy_max_count : ℕ := 2

/-- Output of `handle_asteroid_hit`: updated game state, the (possibly
mutated) asteroid, and the removal/addition accumulators. -/
structure AsteroidHitOut where
  st : GameState
  asteroid : Asteroid
  to_remove : Finset ℕ
  to_add : List Asteroid

/-- `handle_asteroid_hit` (src/main.py lines 2160-2233).  Explosions,
power-up drops, floating text and achievement checks are cosmetic /
entity spawns outside the embedded state; `int(score)` truncation equals
`⌊·⌋` because both factors are non-negative. -/
def handle_asteroid_hit (scale : ℚ) (damage : ℤ) (rnd : HitRnd) (a : Asteroid)
    (index : ℕ) (to_remove : Finset ℕ) (to_add : List Asteroid) (st : GameState) :
    AsteroidHitOut :=
  if a.is_boss then
    let a1 : Asteroid := { a with
      health := a.health - max 1 damage
      hit_flash := Cfg.asteroid_hit_flash_duration }
    if a1.health ≤ 0 then
      let st1 := add_combo { st with score := st.score + Cfg.boss_score }
      { st := { st1 with boss_kills := st1.boss_kills + 1 }
        asteroid := a1
        to_remove := insert index to_remove
        to_add := to_add }
    else
      { st := st, asteroid := a1, to_remove := to_remove, to_add := to_add }
  else
    let a1 : Asteroid := if a.size > 1 then
      { a with hit_flash := Cfg.asteroid_hit_flash_duration } else a
    let to_remove1 := if a.size > 1 then to_remove else insert index to_remove
    let base_score := Cfg.asteroid_scores a.size
    let combo_multiplier : ℚ := 1 + (st.combo.current : ℚ) * (1/10)
    let score_value := ⌊(base_score : ℚ) * combo_multiplier⌋
    let st1 := add_combo { st with score := st.score + score_value }
    let st2 := if st1.score > st1.high_score then
      { st1 with high_score := st1.score } else st1
    let to_add1 := if a.size > 1 then
        to_add ++ (List.range Cfg.asteroid_split_count).map
          (fun i => create_asteroid scale (rnd.childRnd i) a.x a.y (a.size - 1)
            false false)
      else to_add
    let to_remove2 := if a.size > 1 then insert index to_remove1 else to_remove1
    let st3 := if rnd.spawn_roll = true ∧ st2.enemies.length < enemy_max_count then
        { st2 with enemies := st2.enemies ++ [rnd.new_enemy] }
      else st2
    { st := st3, asteroid := a1, to_remove := to_remove2, to_add := to_add1 }

/-- `handle_enemy_hit` (src/main.py lines 2236-2265); the power-up drop
is an entity spawn outside the embedded state. -/
def handle_enemy_hit (damage : ℤ) (e : Enemy) (index : ℕ) (to_remove : Finset ℕ)
    (st : GameState) : GameState × Enemy × Finset ℕ :=
  let e1 : Enemy := { e with
    health := e.health - max 1 damage
    hit_flash := Cfg.asteroid_hit_flash_duration }
  if e1.health ≤ 0 then
    (add_combo { st with score := st.score + Cfg.enemy_score }, e1,
      insert index to_remove)
  else (st, e1, to_remove)

/-- The inner `for j, asteroid in enumerate(g_asteroids)` scan for one
bullet: skip indices already marked for removal, return the first
colliding index (`break`). -/
def firstAsteroidHit (bx by0 bullet_r margin : ℚ) :
    List Asteroid → Finset ℕ → ℕ → Option ℕ
  | [], _, _ => none
  | a :: rest, removed, j =>
    if j ∈ removed then firstAsteroidHit bx by0 bullet_r margin rest removed (j + 1)
    else if check_collision bx by0 a.x a.y bullet_r (a.radius + margin) then some j
    else firstAsteroidHit bx by0 bullet_r margin rest removed (j + 1)

/-- The accumulator of the bullet-asteroid loop: game state, the (live,
mutable) asteroid list, the mark sets, the pending additions, and a trace
of resolved (bullet index, asteroid index) collisions. -/
structure CollisionAcc where
  st : GameState
  asteroids : List Asteroid
  bullets_to_remove : Finset ℕ
  asteroids_to_remove : Finset ℕ
  asteroids_to_add : List Asteroid
  hit_count : ℕ
  asteroid_hits : List (ℕ × ℕ)

/-- One iteration of the outer bullet loop of the bullet-asteroid phase
(src/main.py lines 2053-2067). -/
def processBulletAsteroid (scale : ℚ) (damage : ℤ) (bullet_r margin : ℚ)
    (rnds : ℕ → HitRnd) (acc : CollisionAcc) (ib : ℕ × Bullet) : CollisionAcc :=
  if ib.1 ∈ acc.bullets_to_remove then acc
  else
    match firstAsteroidHit ib.2.x ib.2.y bullet_r margin acc.asteroids
      acc.asteroids_to_remove 0 with
    | none => acc
    | some j =>
      let a := nthD Asteroid.dflt acc.asteroids j
      let out := handle_asteroid_hit scale damage (rnds acc.hit_count) a j
        acc.asteroids_to_remove acc.asteroids_to_add acc.st
      { st := out.st
        asteroids := acc.asteroids.set j out.asteroid
        bullets_to_remove := insert ib.1 acc.bullets_to_remove
        asteroids_to_remove := out.to_remove
        asteroids_to_add := out.to_add
        hit_count := acc.hit_count + 1
        asteroid_hits := acc.asteroid_hits ++ [(ib.1, j)] }

/-- The inner enemy scan for one bullet in the bullet-enemy phase. -/
def firstEnemyHit (bx by0 bullet_r : ℚ) : List Enemy → Finset ℕ → ℕ → Option ℕ
  | [], _, _ => none
  | e :: rest, removed, j =>
    if j ∈ removed then firstEnemyHit bx by0 bullet_r rest removed (j + 1)
    else if check_collision bx by0 e.x e.y bullet_r e.radius then some j
    else firstEnemyHit bx by0 bullet_r rest removed (j + 1)

/-- The accumulator of the bullet-enemy loop. -/
structure EnemyPhaseAcc where
  st : GameState
  bullets_to_remove : Finset ℕ
  enemies_to_remove : Finset ℕ
  enemy_hits : List (ℕ × ℕ)

/-- One iteration of the outer bullet loop of the bullet-enemy phase
(src/main.py lines 2070-2081): a bullet consumed in the asteroid phase is
skipped. -/
def processBulletEnemy (damage : ℤ) (bullet_r : ℚ) (acc : EnemyPhaseAcc)
    (ib : ℕ × Bullet) : EnemyPhaseAcc :=
  if ib.1 ∈ acc.bullets_to_remove then acc
  else
    match firstEnemyHit ib.2.x ib.2.y bullet_r acc.st.enemies
      acc.enemies_to_remove 0 with
    | none => acc
    | some j =>
      let e := nthD Enemy.dflt acc.st.enemies j
      let r := handle_enemy_hit damage e j acc.enemies_to_remove acc.st
      { st := { r.1 with enemies := r.1.enemies.set j r.2.1 }
        bullets_to_remove := insert ib.1 acc.bullets_to_remove
        enemies_to_remove := r.2.2
        enemy_hits := acc.enemy_hits ++ [(ib.1, j)] }

/-- Output of `handle_bullet_collisions`: compacted lists plus the
collision traces. -/
structure CollisionsOut where
  st : GameState
  bullets : List Bullet
  asteroids : List Asteroid
  asteroid_hits : List (ℕ × ℕ)
  enemy_hits : List (ℕ × ℕ)
  bullets_to_remove : Finset ℕ

/-- `handle_bullet_collisions` (src/main.py lines 2035-2086):
mark-for-removal over both pairwise passes, then compact the lists. -/
def handle_bullet_collisions (scale : ℚ) (damage : ℤ) (rnds : ℕ → HitRnd)
    (bullets : List Bullet) (asteroids : List Asteroid) (st : GameState) :
    CollisionsOut :=
  let bullet_r := Cfg.bullet_radius * scale
  let margin := Cfg.asteroid_collision_margin * scale
  let acc1 := bullets.enum.foldl (processBulletAsteroid scale damage bullet_r margin rnds)
    { st := st, asteroids := asteroids, bullets_to_remove := ∅,
      asteroids_to_remove := ∅, asteroids_to_add := [], hit_count := 0,
      asteroid_hits := [] }
  let acc2 := bullets.enum.foldl (processBulletEnemy damage bullet_r)
    { st := acc1.st, bullets_to_remove := acc1.bullets_to_remove,
      enemies_to_remove := ∅, enemy_hits := [] }
  let bullets1 := (bullets.enum.filter
    (fun ib => decide (ib.1 ∉ acc2.bullets_to_remove))).map Prod.snd
  let asteroids1 := (acc1.asteroids.enum.filter
    (fun ia => decide (ia.1 ∉ acc1.asteroids_to_remove))).map Prod.snd ++
      acc1.asteroids_to_add
  let enemies1 := (acc2.st.enemies.enum.filter
    (fun ie => decide (ie.1 ∉ acc2.enemies_to_remove))).map Prod.snd
  { st := { acc2.st with enemies := enemies1 }
    bullets := bullets1
    asteroids := asteroids1
    asteroid_hits := acc1.asteroid_hits
    enemy_hits := acc2.enemy_hits
    bullets_to_remove := acc2.bullets_to_remove }

theorem create_asteroid_fields (scale : ℚ) (rnd : AsteroidRnd) (x y : ℚ) (size0 : ℤ)
    (is_boss has_crystals : Bool) :
    (create_asteroid scale rnd x y size0 is_boss has_crystals).size =
      max Cfg.asteroid_min_size (min Cfg.asteroid_max_size size0) ∧
    (create_asteroid scale rnd x y size0 is_boss has_crystals).x = x ∧
    (create_asteroid scale rnd x y size0 is_boss has_crystals).y = y := ⟨rfl, rfl, rfl⟩

/-- **C7**: a bullet hit on a non-boss asteroid of size S > 1 removes it
and adds exactly `Cfg.asteroid_split_count = 2` asteroids of size S-1 at
the same (x, y); a hit on a non-boss size-1 asteroid removes it and adds
none; every non-boss hit destroys-and-splits (its index is always
marked), while a boss asteroid loses `max 1 damage` health per hit and is
marked for removal exactly when its health reaches 0. -/
theorem C7_asteroid_split (scale : ℚ) (damage : ℤ) (rnd : HitRnd) (a : Asteroid)
    (index : ℕ) (to_remove : Finset ℕ) (to_add : List Asteroid) (st : GameState) :
    (a.is_boss = false → 1 < a.size → a.size ≤ Cfg.asteroid_max_size →
      (handle_asteroid_hit scale damage rnd a index to_remove to_add st).to_add.length
          = to_add.length + Cfg.asteroid_split_count ∧
      (∀ c ∈ (handle_asteroid_hit scale damage rnd a index to_remove to_add
          st).to_add.drop to_add.length,
        c.size = a.size - 1 ∧ c.x = a.x ∧ c.y = a.y) ∧
      index ∈ (handle_asteroid_hit scale damage rnd a index to_remove to_add
        st).to_remove) ∧
    (a.is_boss = false → a.size = 1 →
      (handle_asteroid_hit scale damage rnd a index to_remove to_add st).to_add
          = to_add ∧
      index ∈ (handle_asteroid_hit scale damage rnd a index to_remove to_add
        st).to_remove) ∧
    (a.is_boss = true →
      (handle_asteroid_hit scale damage rnd a index to_remove to_add
          st).asteroid.health = a.health - max 1 damage ∧
      (index ∉ to_remove →
        (index ∈ (handle_asteroid_hit scale damage rnd a index to_remove to_add
            st).to_remove ↔ a.health - max 1 damage ≤ 0))) := by
  refine ⟨?_, ?_, ?_⟩
  · intro hb hsz hsz3
    have hbP : ¬ (a.is_boss = true) := by simp [hb]
    have hto_add : (handle_asteroid_hit scale damage rnd a index to_remove to_add
        st).to_add = to_add ++ (List.range Cfg.asteroid_split_count).map
          (fun i => create_asteroid scale (rnd.childRnd i) a.x a.y (a.size - 1)
            false false) := by
      simp only [handle_asteroid_hit]
      rw [if_neg hbP]
      simp only []
      rw [if_pos hsz]
    have hto_remove : index ∈ (handle_asteroid_hit scale damage rnd a index to_remove
        to_add st).to_remove := by
      simp only [handle_asteroid_hit]
      rw [if_neg hbP]
      simp only []
      rw [if_pos hsz]
      exact Finset.mem_insert_self index _
    refine ⟨?_, ?_, hto_remove⟩
    · rw [hto_add]
      simp
    · rw [hto_add, List.drop_left]
      intro c hc
      obtain ⟨i, _, rfl⟩ := List.mem_map.mp hc
      obtain ⟨hs, hx, hy⟩ := create_asteroid_fields scale (rnd.childRnd i) a.x a.y
        (a.size - 1) false false
      refine ⟨?_, hx, hy⟩
      rw [hs]
      simp only [Cfg.asteroid_min_size, Cfg.asteroid_max_size] at hsz3 ⊢
      omega
  · intro hb h1
    have hbP : ¬ (a.is_boss = true) := by simp [hb]
    have hns : ¬ (a.size > 1) := by omega
    constructor
    · simp only [handle_asteroid_hit]
      rw [if_neg hbP]
      simp only []
      rw [if_neg hns]
    · simp only [handle_asteroid_hit]
      rw [if_neg hbP]
      simp only []
      rw [if_neg hns, if_neg hns]
      exact Finset.mem_insert_self index _
  · intro hbt
    constructor
    · simp only [handle_asteroid_hit]
      rw [if_pos hbt]
      split
      · rfl
      · rfl
    · intro hnm
      simp only [handle_asteroid_hit]
      rw [if_pos hbt]
      by_cases hd : a.health - max 1 damage ≤ 0
      · rw [if_pos hd]
        simp [hd]
      · rw [if_neg hd]
        simp [hd, hnm]

/-- Fixed creation draws for concrete split scenarios. -/
def arndC7 : AsteroidRnd :=
  { sin_a := 0, cos_a := 1, angle2 := 0, spin := 0, shape := [] }

/-- Fixed hit draws for concrete split scenarios (no enemy spawn). -/
def hitRndC7 : HitRnd :=
  { childRnd := fun _ => arndC7, spawn_roll := false, new_enemy := Enemy.dflt }

/-- A size-3 non-boss asteroid at (7, 9). -/
def astC7 : Asteroid := { Asteroid.dflt with x := 7, y := 9, size := 3, radius := 30 }

/-- A full-health boss asteroid. -/
def bossC7 : Asteroid :=
  { Asteroid.dflt with
      size := 3
      radius := 90
      is_boss := true
      health := 50
      max_health := 50 }

/-- Witness for C7: a size-3 non-boss asteroid at (7, 9) splits into two
size-2 children at (7, 9), and a boss loses 2 health on a
damage-multiplier-2 hit. -/
theorem C7_asteroid_split_witness :
    (handle_asteroid_hit 1 1 hitRndC7 astC7 0 ∅ [] stC4).to_add.length =
      0 + Cfg.asteroid_split_count ∧
    (∀ c ∈ (handle_asteroid_hit 1 1 hitRndC7 astC7 0 ∅ [] stC4).to_add.drop 0,
      c.size = 2 ∧ c.x = 7 ∧ c.y = 9) ∧
    (handle_asteroid_hit 1 2 hitRndC7 bossC7 0 ∅ [] stC4).asteroid.health = 48 := by
  obtain ⟨hsplit, _, _⟩ := C7_asteroid_split 1 1 hitRndC7 astC7 0 ∅ [] stC4
  obtain ⟨hlen, hdrop, _⟩ := hsplit rfl (by decide) (by decide)
  obtain ⟨_, _, hboss⟩ := C7_asteroid_split 1 2 hitRndC7 bossC7 0 ∅ [] stC4
  obtain ⟨hh, _⟩ := hboss rfl
  refine ⟨by simpa using hlen, ?_, by rw [hh]; decide⟩
  intro c hc
  have hcc := hdrop c (by simpa using hc)
  simpa [astC7] using hcc

/-! ## C8 lemmas: mark-then-compact prevents double processing -/

/-- Number of resolved collisions on asteroid index `j` in a trace. -/
def hitsOnAst (j : ℕ) (l : List (ℕ × ℕ)) : ℕ := l.countP (fun h => h.2 == j)

/-- Number of collisions resolved by bullet index `i` in a trace. -/
def hitsByBullet (i : ℕ) (l : List (ℕ × ℕ)) : ℕ := l.countP (fun h => h.1 == i)

theorem hitsOnAst_append (j : ℕ) (l1 l2 : List (ℕ × ℕ)) :
    hitsOnAst j (l1 ++ l2) = hitsOnAst j l1 + hitsOnAst j l2 :=
  List.countP_append _ _ _

theorem hitsOnAst_singleton (j i j' : ℕ) :
    hitsOnAst j [(i, j')] = if j' = j then 1 else 0 := by
  simp only [hitsOnAst, List.countP_cons, List.countP_nil]
  by_cases h : j' = j
  · simp [h]
  · simp [h]

theorem hitsByBullet_append (i : ℕ) (l1 l2 : List (ℕ × ℕ)) :
    hitsByBullet i (l1 ++ l2) = hitsByBullet i l1 + hitsByBullet i l2 :=
  List.countP_append _ _ _

theorem hitsByBullet_singleton (i i' j' : ℕ) :
    hitsByBullet i [(i', j')] = if i' = i then 1 else 0 := by
  simp only [hitsByBullet, List.countP_cons, List.countP_nil]
  by_cases h : i' = i
  · simp [h]
  · simp [h]

theorem firstAsteroidHit_not_removed (bx by0 br m : ℚ) (l : List Asteroid) :
    ∀ (removed : Finset ℕ) (k j : ℕ),
      firstAsteroidHit bx by0 br m l removed k = some j → j ∉ removed := by
  induction l with
  | nil => intro removed k j h; simp [firstAsteroidHit] at h
  | cons a rest ih =>
    intro removed k j h
    simp only [firstAsteroidHit] at h
    split at h
    · exact ih removed (k + 1) j h
    · next hk =>
        split at h
        · have hkj : k = j := by simpa using h
          subst hkj
          exact hk
        · exact ih removed (k + 1) j h

theorem firstEnemyHit_not_removed (bx by0 br : ℚ) (l : List Enemy) :
    ∀ (removed : Finset ℕ) (k j : ℕ),
      firstEnemyHit bx by0 br l removed k = some j → j ∉ removed := by
  induction l with
  | nil => intro removed k j h; simp [firstEnemyHit] at h
  | cons e rest ih =>
    intro removed k j h
    simp only [firstEnemyHit] at h
    split at h
    · exact ih removed (k + 1) j h
    · next hk =>
        split at h
        · have hkj : k = j := by simpa using h
          subst hkj
          exact hk
        · exact ih removed (k + 1) j h

theorem asteroidHit_marks (scale : ℚ) (damage : ℤ) (rnd : HitRnd) (a : Asteroid)
    (index : ℕ) (to_remove : Finset ℕ) (to_add : List Asteroid) (st : GameState) :
    to_remove ⊆
      (handle_asteroid_hit scale damage rnd a index to_remove to_add st).to_remove ∧
    (handle_asteroid_hit scale damage rnd a index to_remove to_add st).to_remove ⊆
      insert index to_remove ∧
    (handle_asteroid_hit scale damage rnd a index to_remove to_add
      st).asteroid.is_boss = a.is_boss ∧
    (a.is_boss = false →
      index ∈ (handle_asteroid_hit scale damage rnd a index to_remove to_add
        st).to_remove) := by
  by_cases hb : a.is_boss = true
  · refine ⟨?_, ?_, ?_, ?_⟩
    · simp only [handle_asteroid_hit]
      rw [if_pos hb]
      split
      · exact Finset.subset_insert _ _
      · exact Finset.Subset.refl _
    · simp only [handle_asteroid_hit]
      rw [if_pos hb]
      split
      · exact Finset.Subset.refl _
      · exact Finset.subset_insert _ _
    · simp only [handle_asteroid_hit]
      rw [if_pos hb]
      split
      · rfl
      · rfl
    · intro hfalse
      rw [hb] at hfalse
      exact absurd hfalse (by decide)
  · have hbP : ¬ (a.is_boss = true) := hb
    have hbf : a.is_boss = false := by
      cases hval : a.is_boss
      · rfl
      · exact absurd hval hbP
    by_cases hsz : a.size > 1
    · refine ⟨?_, ?_, ?_, ?_⟩
      · simp only [handle_asteroid_hit]
        rw [if_neg hbP]
        simp only []
        rw [if_pos hsz, if_pos hsz]
        exact Finset.subset_insert _ _
      · simp only [handle_asteroid_hit]
        rw [if_neg hbP]
        simp only []
        rw [if_pos hsz, if_pos hsz]
      · simp only [handle_asteroid_hit]
        rw [if_neg hbP]
        simp only []
        rw [if_pos hsz]
      · intro _
        simp only [handle_asteroid_hit]
        rw [if_neg hbP]
        simp only []
        rw [if_pos hsz, if_pos hsz]
        exact Finset.mem_insert_self _ _
    · refine ⟨?_, ?_, ?_, ?_⟩
      · simp only [handle_asteroid_hit]
        rw [if_neg hbP]
        simp only []
        rw [if_neg hsz, if_neg hsz]
        exact Finset.subset_insert _ _
      · simp only [handle_asteroid_hit]
        rw [if_neg hbP]
        simp only []
        rw [if_neg hsz, if_neg hsz]
      · simp only [handle_asteroid_hit]
        rw [if_neg hbP]
        simp only []
        rw [if_neg hsz]
      · intro _
        simp only [handle_asteroid_hit]
        rw [if_neg hbP]
        simp only []
        rw [if_neg hsz, if_neg hsz]
        exact Finset.mem_insert_self _ _

/-- Structural characterisation of one bullet-asteroid loop iteration:
either nothing happens, or the first unmarked colliding asteroid `j` is
processed, the bullet is consumed and the event is traced. -/
theorem processBulletAsteroid_spec (scale : ℚ) (damage : ℤ) (bullet_r margin : ℚ)
    (rnds : ℕ → HitRnd) (acc : CollisionAcc) (ib : ℕ × Bullet) :
    processBulletAsteroid scale damage bullet_r margin rnds acc ib = acc ∨
    ∃ j, j ∉ acc.asteroids_to_remove ∧ ib.1 ∉ acc.bullets_to_remove ∧
      processBulletAsteroid scale damage bullet_r margin rnds acc ib =
        { st := (handle_asteroid_hit scale damage (rnds acc.hit_count)
            (nthD Asteroid.dflt acc.asteroids j) j acc.asteroids_to_remove
            acc.asteroids_to_add acc.st).st
          asteroids := acc.asteroids.set j (handle_asteroid_hit scale damage
            (rnds acc.hit_count) (nthD Asteroid.dflt acc.asteroids j) j
            acc.asteroids_to_remove acc.asteroids_to_add acc.st).asteroid
          bullets_to_remove := insert ib.1 acc.bullets_to_remove
          asteroids_to_remove := (handle_asteroid_hit scale damage
            (rnds acc.hit_count) (nthD Asteroid.dflt acc.asteroids j) j
            acc.asteroids_to_remove acc.asteroids_to_add acc.st).to_remove
          asteroids_to_add := (handle_asteroid_hit scale damage
            (rnds acc.hit_count) (nthD Asteroid.dflt acc.asteroids j) j
            acc.asteroids_to_remove acc.asteroids_to_add acc.st).to_add
          hit_count := acc.hit_count + 1
          asteroid_hits := acc.asteroid_hits ++ [(ib.1, j)] } := by
  unfold processBulletAsteroid
  split
  · exact Or.inl rfl
  · next hnb =>
      split
      · next heq =>
          exact Or.inl rfl
      · next j heq =>
          exact Or.inr ⟨j,
            firstAsteroidHit_not_removed _ _ _ _ acc.asteroids _ 0 j heq, hnb, rfl⟩

/-- Structural characterisation of one bullet-enemy loop iteration. -/
theorem processBulletEnemy_spec (damage : ℤ) (bullet_r : ℚ)
    (acc : EnemyPhaseAcc) (ib : ℕ × Bullet) :
    processBulletEnemy damage bullet_r acc ib = acc ∨
    (ib.1 ∉ acc.bullets_to_remove ∧ ∃ j,
      processBulletEnemy damage bullet_r acc ib =
        { st := { (handle_enemy_hit damage (nthD Enemy.dflt acc.st.enemies j) j
              acc.enemies_to_remove acc.st).1 with
                enemies := (handle_enemy_hit damage (nthD Enemy.dflt acc.st.enemies j)
                  j acc.enemies_to_remove acc.st).1.enemies.set j
                    (handle_enemy_hit damage (nthD Enemy.dflt acc.st.enemies j) j
                      acc.enemies_to_remove acc.st).2.1 }
          bullets_to_remove := insert ib.1 acc.bullets_to_remove
          enemies_to_remove := (handle_enemy_hit damage
            (nthD Enemy.dflt acc.st.enemies j) j acc.enemies_to_remove acc.st).2.2
          enemy_hits := acc.enemy_hits ++ [(ib.1, j)] }) := by
  unfold processBulletEnemy
  split
  · exact Or.inl rfl
  · next hnb =>
      split
      · exact Or.inl rfl
      · next j heq =>
          exact Or.inr ⟨hnb, j, rfl⟩

theorem phase1_marked (scale : ℚ) (damage : ℤ) (bullet_r margin : ℚ)
    (rnds : ℕ → HitRnd) (j : ℕ) (bs : List (ℕ × Bullet)) :
    ∀ (acc : CollisionAcc), j ∈ acc.asteroids_to_remove →
      j ∈ (bs.foldl (processBulletAsteroid scale damage bullet_r margin rnds)
        acc).asteroids_to_remove ∧
      hitsOnAst j (bs.foldl (processBulletAsteroid scale damage bullet_r margin rnds)
        acc).asteroid_hits = hitsOnAst j acc.asteroid_hits := by
  induction bs with
  | nil => intro acc h; exact ⟨h, rfl⟩
  | cons ib rest ih =>
    intro acc h
    rw [List.foldl_cons]
    rcases processBulletAsteroid_spec scale damage bullet_r margin rnds acc ib with
      heq | ⟨jh, hjh, _, heq⟩
    · rw [heq]; exact ih acc h
    · have hne : jh ≠ j := fun e => hjh (e ▸ h)
      have hrm : (processBulletAsteroid scale damage bullet_r margin rnds acc
          ib).asteroids_to_remove = (handle_asteroid_hit scale damage
          (rnds acc.hit_count) (nthD Asteroid.dflt acc.asteroids jh) jh
          acc.asteroids_to_remove acc.asteroids_to_add acc.st).to_remove := by
        rw [heq]
      have hhits : (processBulletAsteroid scale damage bullet_r margin rnds acc
          ib).asteroid_hits = acc.asteroid_hits ++ [(ib.1, jh)] := by
        rw [heq]
      obtain ⟨hmono, _, _, _⟩ := asteroidHit_marks scale damage (rnds acc.hit_count)
        (nthD Asteroid.dflt acc.asteroids jh) jh acc.asteroids_to_remove
        acc.asteroids_to_add acc.st
      have hmem : j ∈ (processBulletAsteroid scale damage bullet_r margin rnds acc
          ib).asteroids_to_remove := by
        rw [hrm]; exact hmono h
      obtain ⟨h1, h2⟩ := ih (processBulletAsteroid scale damage bullet_r margin
        rnds acc ib) hmem
      refine ⟨h1, ?_⟩
      rw [h2, hhits, hitsOnAst_append, hitsOnAst_singleton, if_neg hne]
      omega

theorem phase1_nonboss (scale : ℚ) (damage : ℤ) (bullet_r margin : ℚ)
    (rnds : ℕ → HitRnd) (j : ℕ) (bs : List (ℕ × Bullet)) :
    ∀ (acc : CollisionAcc),
      (nthD Asteroid.dflt acc.asteroids j).is_boss = false →
      j ∉ acc.asteroids_to_remove →
      hitsOnAst j (bs.foldl (processBulletAsteroid scale damage bullet_r margin rnds)
        acc).asteroid_hits ≤ hitsOnAst j acc.asteroid_hits + 1 := by
  induction bs with
  | nil =>
    intro acc _ _
    rw [List.foldl_nil]
    exact Nat.le_succ _
  | cons ib rest ih =>
    intro acc hnb hnm
    rw [List.foldl_cons]
    rcases processBulletAsteroid_spec scale damage bullet_r margin rnds acc ib with
      heq | ⟨jh, hjh, _, heq⟩
    · rw [heq]; exact ih acc hnb hnm
    · have hrm : (processBulletAsteroid scale damage bullet_r margin rnds acc
          ib).asteroids_to_remove = (handle_asteroid_hit scale damage
          (rnds acc.hit_count) (nthD Asteroid.dflt acc.asteroids jh) jh
          acc.asteroids_to_remove acc.asteroids_to_add acc.st).to_remove := by
        rw [heq]
      have hhits : (processBulletAsteroid scale damage bullet_r margin rnds acc
          ib).asteroid_hits = acc.asteroid_hits ++ [(ib.1, jh)] := by
        rw [heq]
      have hast : (processBulletAsteroid scale damage bullet_r margin rnds acc
          ib).asteroids = acc.asteroids.set jh (handle_asteroid_hit scale damage
          (rnds acc.hit_count) (nthD Asteroid.dflt acc.asteroids jh) jh
          acc.asteroids_to_remove acc.asteroids_to_add acc.st).asteroid := by
        rw [heq]
      obtain ⟨hmono, hsub, hbosseq, hmark⟩ := asteroidHit_marks scale damage
        (rnds acc.hit_count) (nthD Asteroid.dflt acc.asteroids jh) jh
        acc.asteroids_to_remove acc.asteroids_to_add acc.st
      by_cases hjj : jh = j
      · subst hjj
        have hmem : jh ∈ (processBulletAsteroid scale damage bullet_r margin rnds
            acc ib).asteroids_to_remove := by
          rw [hrm]; exact hmark hnb
        obtain ⟨_, hfrozen⟩ := phase1_marked scale damage bullet_r margin rnds jh
          rest (processBulletAsteroid scale damage bullet_r margin rnds acc ib)
          hmem
        rw [hfrozen, hhits, hitsOnAst_append, hitsOnAst_singleton, if_pos rfl]
      · have hnm2 : j ∉ (processBulletAsteroid scale damage bullet_r margin rnds
            acc ib).asteroids_to_remove := by
          rw [hrm]
          intro hmem2
          rcases Finset.mem_insert.mp (hsub hmem2) with e | hin
          · exact hjj e.symm
          · exact hnm hin
        have hnb2 : (nthD Asteroid.dflt (processBulletAsteroid scale damage
            bullet_r margin rnds acc ib).asteroids j).is_boss = false := by
          rw [hast, nthD_set_ne _ _ _ _ _ hjj]
          exact hnb
        have hrec := ih (processBulletAsteroid scale damage bullet_r margin rnds
          acc ib) hnb2 hnm2
        refine le_trans hrec ?_
        rw [hhits, hitsOnAst_append, hitsOnAst_singleton, if_neg hjj]

theorem phase1_bullet (scale : ℚ) (damage : ℤ) (bullet_r margin : ℚ)
    (rnds : ℕ → HitRnd) (i : ℕ) (bs : List (ℕ × Bullet)) :
    ∀ (acc : CollisionAcc),
      hitsByBullet i acc.asteroid_hits ≤
        (if i ∈ acc.bullets_to_remove then 1 else 0) →
      hitsByBullet i (bs.foldl (processBulletAsteroid scale damage bullet_r margin rnds)
        acc).asteroid_hits ≤
        (if i ∈ (bs.foldl (processBulletAsteroid scale damage bullet_r margin rnds)
          acc).bullets_to_remove then 1 else 0) := by
  induction bs with
  | nil => intro acc h; exact h
  | cons ib rest ih =>
    intro acc h
    rw [List.foldl_cons]
    rcases processBulletAsteroid_spec scale damage bullet_r margin rnds acc ib with
      heq | ⟨jh, _, hib, heq⟩
    · rw [heq]; exact ih acc h
    · rw [heq]
      apply ih
      show hitsByBullet i (acc.asteroid_hits ++ [(ib.1, jh)]) ≤
        (if i ∈ insert ib.1 acc.bullets_to_remove then 1 else 0)
      rw [hitsByBullet_append, hitsByBullet_singleton]
      by_cases hii : ib.1 = i
      · subst hii
        have h0 : hitsByBullet ib.1 acc.asteroid_hits = 0 := by
          rw [if_neg hib] at h
          omega
        rw [h0, if_pos rfl, if_pos (Finset.mem_insert_self _ _)]
      · rw [if_neg hii]
        have hmemiff : (i ∈ insert ib.1 acc.bullets_to_remove) ↔
            (i ∈ acc.bullets_to_remove) := by
          rw [Finset.mem_insert]
          constructor
          · rintro (e | hin)
            · exact absurd e.symm hii
            · exact hin
          · exact Or.inr
        by_cases hin : i ∈ acc.bullets_to_remove
        · rw [if_pos (hmemiff.mpr hin)]
          rw [if_pos hin] at h
          omega
        · rw [if_neg (fun hc => hin (hmemiff.mp hc))]
          rw [if_neg hin] at h
          omega

theorem phase2_bullet (damage : ℤ) (bullet_r : ℚ) (i : ℕ) (A : ℕ)
    (bs : List (ℕ × Bullet)) :
    ∀ (acc : EnemyPhaseAcc),
      A + hitsByBullet i acc.enemy_hits ≤
        (if i ∈ acc.bullets_to_remove then 1 else 0) →
      A + hitsByBullet i (bs.foldl (processBulletEnemy damage bullet_r)
        acc).enemy_hits ≤
        (if i ∈ (bs.foldl (processBulletEnemy damage bullet_r)
          acc).bullets_to_remove then 1 else 0) := by
  induction bs with
  | nil => intro acc h; exact h
  | cons ib rest ih =>
    intro acc h
    rw [List.foldl_cons]
    rcases processBulletEnemy_spec damage bullet_r acc ib with
      heq | ⟨hib, jh, heq⟩
    · rw [heq]; exact ih acc h
    · rw [heq]
      apply ih
      show A + hitsByBullet i (acc.enemy_hits ++ [(ib.1, jh)]) ≤
        (if i ∈ insert ib.1 acc.bullets_to_remove then 1 else 0)
      rw [hitsByBullet_append, hitsByBullet_singleton]
      by_cases hii : ib.1 = i
      · subst hii
        rw [if_neg hib] at h
        rw [if_pos rfl, if_pos (Finset.mem_insert_self _ _)]
        omega
      · rw [if_neg hii]
        have hmemiff : (i ∈ insert ib.1 acc.bullets_to_remove) ↔
            (i ∈ acc.bullets_to_remove) := by
          rw [Finset.mem_insert]
          constructor
          · rintro (e | hin)
            · exact absurd e.symm hii
            · exact hin
          · exact Or.inr
        by_cases hin : i ∈ acc.bullets_to_remove
        · rw [if_pos (hmemiff.mpr hin)]
          rw [if_pos hin] at h
          omega
        · rw [if_neg (fun hc => hin (hmemiff.mp hc))]
          rw [if_neg hin] at h
          omega

/-- Deterministic creation draws for the C8 scenario. -/
def arndC8 : AsteroidRnd :=
  { sin_a := 0, cos_a := 1, angle2 := 0, spin := 0, shape := [] }

/-- Hit draws for the C8 scenario: no enemy spawn roll. -/
def hitRndC8 : HitRnd :=
  { childRnd := fun _ => arndC8, spawn_roll := false, new_enemy := Enemy.dflt }

/-- A bullet sitting at the origin. -/
def bulletC8 : Bullet := { x := 0, y := 0, vx := 0, vy := 0, life := 60, trail := [] }

/-- A non-boss size-1 asteroid at the origin. -/
def astC8 : Asteroid := { Asteroid.dflt with radius := 10 }

/-- An idle finisher for the C8 scenario. -/
def finC8 : FinisherState :=
  { meter := 0, ready := false, executing := false, phase := FinisherPhase.idle,
    execution_timer := 0, target := none, shockwave_radius := 0,
    lock_on_progress := 0, impact_x := 0, impact_y := 0 }

/-- A quiet in-game state for the C8 scenario. -/
def stC8 : GameState :=
  { score := 0, high_score := 0, lives := 3, game_over := false, paused := false,
    show_upgrade_menu := false, untouchable_level := true, pause_debounce := 0,
    frame_count := 0, time_scale := 1, dash_cooldown := 0,
    combo := comboZero, finisher := finC8,
    ship := shipIdle, enemies := [], boss_kills := 0 }

/-- **C8**: within one frame's bullet-collision resolution the
mark-for-removal-then-compact semantics give single resolution:
(1) every non-boss asteroid index appears at most once in the frame's
resolved bullet-asteroid collisions; (2) every bullet index resolves at
most one collision across the asteroid and enemy passes combined; and
(3) in the concrete scenario of two bullets both overlapping the same
non-boss size-1 asteroid, both bullets pass the collision test, yet
exactly one collision is resolved: the asteroid is destroyed once and
scored once (+20), and the second bullet survives the frame. -/
theorem C8_single_resolution :
    (∀ (scale : ℚ) (damage : ℤ) (rnds : ℕ → HitRnd) (bullets : List Bullet)
      (asteroids : List Asteroid) (st : GameState) (j : ℕ),
      (nthD Asteroid.dflt asteroids j).is_boss = false →
      hitsOnAst j (handle_bullet_collisions scale damage rnds bullets asteroids
        st).asteroid_hits ≤ 1) ∧
    (∀ (scale : ℚ) (damage : ℤ) (rnds : ℕ → HitRnd) (bullets : List Bullet)
      (asteroids : List Asteroid) (st : GameState) (i : ℕ),
      hitsByBullet i (handle_bullet_collisions scale damage rnds bullets asteroids
        st).asteroid_hits +
      hitsByBullet i (handle_bullet_collisions scale damage rnds bullets asteroids
        st).enemy_hits ≤ 1) ∧
    (check_collision bulletC8.x bulletC8.y astC8.x astC8.y
        (Cfg.bullet_radius * 1) (astC8.radius + Cfg.asteroid_collision_margin * 1) ∧
     (handle_bullet_collisions 1 1 (fun _ => hitRndC8) [bulletC8, bulletC8]
        [astC8] stC8).asteroid_hits = [(0, 0)] ∧
     (handle_bullet_collisions 1 1 (fun _ => hitRndC8) [bulletC8, bulletC8]
        [astC8] stC8).asteroids = [] ∧
     (handle_bullet_collisions 1 1 (fun _ => hitRndC8) [bulletC8, bulletC8]
        [astC8] stC8).bullets = [bulletC8] ∧
     (handle_bullet_collisions 1 1 (fun _ => hitRndC8) [bulletC8, bulletC8]
        [astC8] stC8).st.score = stC8.score + 20) := by
  refine ⟨?_, ?_, ?_⟩
  · intro scale damage rnds bullets asteroids st j hnb
    simp only [handle_bullet_collisions]
    have h := phase1_nonboss scale damage (Cfg.bullet_radius * scale)
      (Cfg.asteroid_collision_margin * scale) rnds j bullets.enum
      { st := st, asteroids := asteroids, bullets_to_remove := ∅,
        asteroids_to_remove := ∅, asteroids_to_add := [], hit_count := 0,
        asteroid_hits := [] } hnb (Finset.not_mem_empty j)
    simpa [hitsOnAst] using h
  · intro scale damage rnds bullets asteroids st i
    simp only [handle_bullet_collisions]
    have h0 : hitsByBullet i ([] : List (ℕ × ℕ)) ≤
        (if i ∈ (∅ : Finset ℕ) then 1 else 0) := by
      rw [if_neg (Finset.not_mem_empty i)]
      simp [hitsByBullet]
    have h1 := phase1_bullet scale damage (Cfg.bullet_radius * scale)
      (Cfg.asteroid_collision_margin * scale) rnds i bullets.enum
      { st := st, asteroids := asteroids, bullets_to_remove := ∅,
        asteroids_to_remove := ∅, asteroids_to_add := [], hit_count := 0,
        asteroid_hits := [] } h0
    have h2 := phase2_bullet damage (Cfg.bullet_radius * scale) i
      (hitsByBullet i (List.foldl (processBulletAsteroid scale damage
        (Cfg.bullet_radius * scale) (Cfg.asteroid_collision_margin * scale) rnds)
        { st := st, asteroids := asteroids, bullets_to_remove := ∅,
          asteroids_to_remove := ∅, asteroids_to_add := [], hit_count := 0,
          asteroid_hits := [] } bullets.enum).asteroid_hits) bullets.enum
      { st := (List.foldl (processBulletAsteroid scale damage
          (Cfg.bullet_radius * scale) (Cfg.asteroid_collision_margin * scale) rnds)
          { st := st, asteroids := asteroids, bullets_to_remove := ∅,
            asteroids_to_remove := ∅, asteroids_to_add := [], hit_count := 0,
            asteroid_hits := [] } bullets.enum).st
        bullets_to_remove := (List.foldl (processBulletAsteroid scale damage
          (Cfg.bullet_radius * scale) (Cfg.asteroid_collision_margin * scale) rnds)
          { st := st, asteroids := asteroids, bullets_to_remove := ∅,
            asteroids_to_remove := ∅, asteroids_to_add := [], hit_count := 0,
            asteroid_hits := [] } bullets.enum).bullets_to_remove
        enemies_to_remove := ∅
        enemy_hits := [] } (by exact h1)
    refine le_trans (le_of_eq ?_) (le_trans h2 ?_)
    · show _ = _ + _
      rfl
    · split <;> omega
  · with_unfolding_all decide

/-- Witness for C8's universally quantified single-resolution bounds at
the concrete two-bullets-one-asteroid scenario. -/
theorem C8_single_resolution_witness :
    hitsOnAst 0 (handle_bullet_collisions 1 1 (fun _ => hitRndC8)
      [bulletC8, bulletC8] [astC8] stC8).asteroid_hits ≤ 1 ∧
    hitsByBullet 0 (handle_bullet_collisions 1 1 (fun _ => hitRndC8)
      [bulletC8, bulletC8] [astC8] stC8).asteroid_hits +
    hitsByBullet 0 (handle_bullet_collisions 1 1 (fun _ => hitRndC8)
      [bulletC8, bulletC8] [astC8] stC8).enemy_hits ≤ 1 :=
  ⟨C8_single_resolution.1 1 1 (fun _ => hitRndC8) [bulletC8, bulletC8] [astC8]
      stC8 0 (by with_unfolding_all decide),
    C8_single_resolution.2.1 1 1 (fun _ => hitRndC8) [bulletC8, bulletC8] [astC8]
      stC8 0⟩

end AC2
